import Mathlib

/-!
# Verification of the Fitness-tracker exercise-counting engine

Shallow embedding of the pose-based exercise counting pipeline of the
repository (the buffered implementation in `Workouts.jsx`: `getKeypointByName`,
the seven detector blocks of `detectAndProcess`, `bufferIncrement`,
`flushCountsToContext`, together with the published count store of
`WorkoutContext.jsx`), and proofs of the specification's testable properties.

JavaScript numbers are modelled by `JsNum`: an exact rational together with
the special values `NaN`, `+Infinity` and `-Infinity`, with ECMAScript
semantics for the arithmetic and comparisons the source uses (every
comparison involving `NaN` is false, `Infinity - Infinity` is `NaN`, ...).
Timestamps (`Date.now()` values) are integers in milliseconds.
-/

/-- A JavaScript number: `NaN`, one of the two infinities, or a finite value
(modelled as an exact rational). -/
inductive JsNum where
  | nan : JsNum
  | inf : JsNum
  | neginf : JsNum
  | fin (q : ℚ) : JsNum
deriving DecidableEq

/-- ECMAScript `a < b`: false whenever an operand is `NaN`, otherwise the
order of the extended real line. -/
def jlt : JsNum → JsNum → Bool
  | .nan, _ | _, .nan => false
  | .fin a, .fin b => decide (a < b)
  | .fin _, .inf => true
  | .fin _, .neginf => false
  | .inf, _ => false
  | .neginf, .neginf => false
  | .neginf, _ => true

/-- ECMAScript `a > b` (same as `b < a`). -/
def jgt (a b : JsNum) : Bool := jlt b a

/-- ECMAScript `a >= b`: false whenever an operand is `NaN`, otherwise the
negation of `a < b`. -/
def jge : JsNum → JsNum → Bool
  | .nan, _ | _, .nan => false
  | a, b => !jlt a b

/-- Adding a finite constant to a JavaScript number. -/
def jaddc : JsNum → ℚ → JsNum
  | .nan, _ => .nan
  | .inf, _ => .inf
  | .neginf, _ => .neginf
  | .fin a, c => .fin (a + c)

/-- ECMAScript subtraction. -/
def jsub : JsNum → JsNum → JsNum
  | .nan, _ | _, .nan => .nan
  | .inf, .inf => .nan
  | .inf, _ => .inf
  | .neginf, .neginf => .nan
  | .neginf, _ => .neginf
  | .fin _, .inf => .neginf
  | .fin _, .neginf => .inf
  | .fin a, .fin b => .fin (a - b)

/-- ECMAScript addition. -/
def jadd : JsNum → JsNum → JsNum
  | .nan, _ | _, .nan => .nan
  | .inf, .neginf => .nan
  | .inf, _ => .inf
  | .neginf, .inf => .nan
  | .neginf, _ => .neginf
  | .fin _, .inf => .inf
  | .fin _, .neginf => .neginf
  | .fin a, .fin b => .fin (a + b)

/-- `Math.abs`. -/
def jabs : JsNum → JsNum
  | .nan => .nan
  | .inf => .inf
  | .neginf => .inf
  | .fin a => .fin |a|

/-- Halving, used for the `(a + b) / 2` averages of the source. -/
def jhalf : JsNum → JsNum
  | .nan => .nan
  | .inf => .inf
  | .neginf => .neginf
  | .fin a => .fin (a / 2)

/-- `(a + b) / 2` as the source computes ankle and eye-distance averages. -/
def javg (a b : JsNum) : JsNum := jhalf (jadd a b)

/-- ECMAScript multiplication by a finite rational factor (the
`kp.x * videoWidth` rescale of `getKeypointByName`). -/
def jscale : JsNum → ℚ → JsNum
  | .nan, _ => .nan
  | .fin a, c => .fin (a * c)
  | .inf, c => if 0 < c then .inf else if c < 0 then .neginf else .nan
  | .neginf, c => if 0 < c then .neginf else if c < 0 then .inf else .nan

/-- `isNaN`. -/
def jIsNaN : JsNum → Bool
  | .nan => true
  | _ => false

/-- `Number.isFinite`: the spec's notion of a usable coordinate. -/
def jsFinite : JsNum → Bool
  | .fin _ => true
  | _ => false

/-- The value `Math.hypot(dx, dy)`, represented symbolically: per
ECMAScript, the result is `+Infinity` if either argument is infinite
(even when the other is `NaN`), `NaN` if an argument is `NaN`, and
otherwise the nonnegative real `√(dx² + dy²)`, which we represent by the
exact rational `dx² + dy²` under the square root. -/
inductive HypotVal where
  | nan : HypotVal
  | inf : HypotVal
  | fin (sumsq : ℚ) : HypotVal
deriving DecidableEq

/-- `Math.hypot` on two JavaScript numbers. -/
def jhypot : JsNum → JsNum → HypotVal
  | .inf, _ | .neginf, _ | _, .inf | _, .neginf => .inf
  | .nan, _ | _, .nan => .nan
  | .fin a, .fin b => .fin (a ^ 2 + b ^ 2)

/-- Decides `√a + √b < c` for nonnegative rationals `a`, `b` (the two
squared hypotenuses) by squaring twice:
`√a + √b < c ↔ 0 < c ∧ (0 < c² - a - b ∧ 4ab < (c² - a - b)²)`. -/
def sqrtSumLt (a b c : ℚ) : Bool :=
  decide (0 < c) && (decide (0 < c ^ 2 - a - b) && decide (4 * a * b < (c ^ 2 - a - b) ^ 2))

/-- Decides `√a + √b > c` for nonnegative rationals `a`, `b` by squaring
twice: `√a + √b > c ↔ c < 0 ∨ (c² - a - b < 0 ∨ (c² - a - b)² < 4ab)`. -/
def sqrtSumGt (a b c : ℚ) : Bool :=
  decide (c < 0) || (decide (c ^ 2 - a - b < 0) || decide ((c ^ 2 - a - b) ^ 2 < 4 * a * b))

/-- The source's `earAvg < c` with `earAvg = (h₁ + h₂) / 2` the mean of two
`Math.hypot` values: false on `NaN` or infinite means, otherwise the exact
comparison `√s₁ + √s₂ < 2c`. -/
def earAvgLt (u v : HypotVal) (c : ℚ) : Bool :=
  match u, v with
  | .nan, _ | _, .nan => false
  | .inf, _ | _, .inf => false
  | .fin a, .fin b => sqrtSumLt a b (2 * c)

/-- The source's `earAvg > c`: false on `NaN`, true on an infinite mean,
otherwise the exact comparison `√s₁ + √s₂ > 2c`. -/
def earAvgGt (u v : HypotVal) (c : ℚ) : Bool :=
  match u, v with
  | .nan, _ | _, .nan => false
  | .inf, _ | _, .inf => true
  | .fin a, .fin b => sqrtSumGt a b (2 * c)

/-- A raw keypoint as delivered by the pose model: a position (JavaScript
numbers, normalized to `[0,1]` in the happy path but unconstrained here)
and an optional confidence score (`None` models a missing/`null` score). -/
structure RawKp where
  x : JsNum
  y : JsNum
  score : Option ℚ
deriving DecidableEq

/-- A pose frame: the (up to 17) keypoints indexed as in `KEYPOINT_INDEX`,
the video dimensions, and the `Date.now()` timestamp at processing time. -/
structure PoseFrame where
  kps : Fin 17 → Option RawKp
  width : ℚ
  height : ℚ
  now : ℤ

/-- `getKeypointByName` of `Workouts.jsx`: rejects a missing keypoint, a
missing (`null`) or low (`< 0.2`) score, and a `NaN` rescaled coordinate;
otherwise returns the keypoint with its position rescaled by the video
dimensions. -/
def getKeypointByName (kps : Fin 17 → Option RawKp) (idx : Fin 17) (w h : ℚ) :
    Option RawKp :=
  match kps idx with
  | none => none
  | some kp =>
    match kp.score with
    | none => none
    | some sc =>
      if sc < 0.2 then none
      else
        let x := jscale kp.x w
        let y := jscale kp.y h
        if jIsNaN x || jIsNaN y then none
        else some { x := x, y := y, score := some sc }

/-- The seven tracked exercises (the keys of the count objects). -/
inductive Exercise where
  | handLifts | eyeBlinks | pushUps | highJumps | squats | jumpingJacks | lunges
deriving DecidableEq

/-- A count table (`localCountsRef.current` / the context `counts`). -/
def Counts : Type := Exercise → ℕ

/-- The all-zero count table (`defaultLocalCounts`). -/
def zeroCounts : Counts := fun _ => 0

/-- `bufferIncrement`: increment one exercise's local count by one. -/
def bufferIncrement (c : Counts) (k : Exercise) : Counts :=
  fun k' => if k' = k then c k' + 1 else c k'

/-- The binary detector states `"up"`/`"down"` of the source. -/
inductive UpDown where
  | up | down
deriving DecidableEq

/-- The jumping-jack detector states `"open"`/`"closed"`. -/
inductive JJState where
  | jopen | jclosed
deriving DecidableEq

/-- `stateRef.current` of `Workouts.jsx`: the per-detector discrete states
and the `lastTimes` timestamps. -/
structure DetectorState where
  handLifted : Bool
  blinkDetected : Bool
  pushUpState : UpDown
  highJumpState : UpDown
  squatState : UpDown
  jumpingJackState : JJState
  lungeState : UpDown
  ltBlink : ℤ
  ltPushUp : ℤ
  ltHighJump : ℤ
  ltSquat : ℤ
  ltJumpingJack : ℤ
  ltLunge : ℤ
deriving DecidableEq

/-- The initial `stateRef` value. -/
def initDetectorState : DetectorState :=
  { handLifted := false, blinkDetected := false, pushUpState := .up,
    highJumpState := .down, squatState := .up, jumpingJackState := .jclosed,
    lungeState := .up, ltBlink := 0, ltPushUp := 0, ltHighJump := 0,
    ltSquat := 0, ltJumpingJack := 0, ltLunge := 0 }

/-- The whole mutable state of the pipeline: detector state, the local
count buffer, the published context counts, and the last flush time. -/
structure SysState where
  det : DetectorState
  localCounts : Counts
  contextCounts : Counts
  lastContextFlush : ℤ

/-- The state right after mounting at time `t0`: fresh detector state, both
count tables zero, and `lastContextFlush = Date.now()` (the mount time). -/
def initState (t0 : ℤ) : SysState :=
  { det := initDetectorState, localCounts := zeroCounts,
    contextCounts := zeroCounts, lastContextFlush := t0 }

/-- The twelve keypoints `detectAndProcess` fetches through
`getKeypointByName`, plus the frame dimensions and timestamp: a frame
after keypoint filtering. -/
structure FilteredFrame where
  leftWrist : Option RawKp
  rightWrist : Option RawKp
  leftShoulder : Option RawKp
  rightShoulder : Option RawKp
  leftEye : Option RawKp
  rightEye : Option RawKp
  nose : Option RawKp
  leftAnkle : Option RawKp
  rightAnkle : Option RawKp
  leftKnee : Option RawKp
  leftHip : Option RawKp
  rightKnee : Option RawKp
  rightHip : Option RawKp
  width : ℚ
  height : ℚ
  now : ℤ

/-- Keypoint filtering of a whole frame: the fetches at the top of
`detectAndProcess`, with the `KEYPOINT_INDEX` indices of the source. -/
def filterFrame (f : PoseFrame) : FilteredFrame :=
  { leftWrist := getKeypointByName f.kps 9 f.width f.height
    rightWrist := getKeypointByName f.kps 10 f.width f.height
    leftShoulder := getKeypointByName f.kps 5 f.width f.height
    rightShoulder := getKeypointByName f.kps 6 f.width f.height
    leftEye := getKeypointByName f.kps 1 f.width f.height
    rightEye := getKeypointByName f.kps 2 f.width f.height
    nose := getKeypointByName f.kps 0 f.width f.height
    leftAnkle := getKeypointByName f.kps 15 f.width f.height
    rightAnkle := getKeypointByName f.kps 16 f.width f.height
    leftKnee := getKeypointByName f.kps 13 f.width f.height
    leftHip := getKeypointByName f.kps 11 f.width f.height
    rightKnee := getKeypointByName f.kps 14 f.width f.height
    rightHip := getKeypointByName f.kps 12 f.width f.height
    width := f.width, height := f.height, now := f.now }

/-- The hand-lift block of `detectAndProcess` (edge-triggered, no
debounce): emits on the rest→lifted edge `wrist.y < shoulder.y + 10`. -/
def handLiftCore (lw ls : Option RawKp) (st : Bool) (c : Counts) :
    Bool × Counts :=
  match lw, ls with
  | some w, some sh =>
    if jlt w.y (jaddc sh.y 10) && !st then (true, bufferIncrement c .handLifts)
    else if jge w.y (jaddc sh.y 10) then (false, c)
    else (st, c)
  | _, _ => (st, c)

/-- The blink block: mean eye-to-nose distance below 80 emits (debounced by
250 ms), above 95 re-arms. -/
def blinkCore (le re n : Option RawKp) (now : ℤ) (st : Bool) (lt : ℤ)
    (c : Counts) : Bool × ℤ × Counts :=
  match le, re, n with
  | some l, some r, some ns =>
    let h1 := jhypot (jsub l.x ns.x) (jsub l.y ns.y)
    let h2 := jhypot (jsub r.x ns.x) (jsub r.y ns.y)
    if earAvgLt h1 h2 80 && !st && decide (250 < now - lt) then
      (true, now, bufferIncrement c .eyeBlinks)
    else if earAvgGt h1 h2 95 then (false, lt, c)
    else (st, lt, c)
  | _, _, _ => (st, lt, c)

/-- The push-up block: shoulder below `0.45·h` while `"up"` (debounced by
400 ms) moves to `"down"` silently; shoulder above `0.25·h` while `"down"`
emits and returns to `"up"`. -/
def pushUpCore (rs : Option RawKp) (h : ℚ) (now : ℤ) (st : UpDown) (lt : ℤ)
    (c : Counts) : UpDown × ℤ × Counts :=
  match rs with
  | some kp =>
    if jgt kp.y (.fin (h * 0.45)) && (st == .up) && decide (400 < now - lt) then
      (.down, lt, c)
    else if jlt kp.y (.fin (h * 0.25)) && (st == .down) then
      (.up, now, bufferIncrement c .pushUps)
    else (st, lt, c)
  | none => (st, lt, c)

/-- The high-jump block: mean ankle height above `0.24·h` while `"down"`
(debounced by 500 ms) emits and moves to `"up"`; below `0.66·h` re-arms. -/
def highJumpCore (la ra : Option RawKp) (h : ℚ) (now : ℤ) (st : UpDown)
    (lt : ℤ) (c : Counts) : UpDown × ℤ × Counts :=
  match la, ra with
  | some l, some r =>
    let avg := javg l.y r.y
    if jlt avg (.fin (h * 0.24)) && (st == .down) && decide (500 < now - lt) then
      (.up, now, bufferIncrement c .highJumps)
    else if jgt avg (.fin (h * 0.66)) then (.down, lt, c)
    else (st, lt, c)
  | _, _ => (st, lt, c)

/-- The squat block: knee 40 px below hip while `"up"` (debounced by
500 ms) moves to `"down"` silently; knee within 10 px of the hip while
`"down"` emits and returns to `"up"`. -/
def squatCore (lk lh : Option RawKp) (now : ℤ) (st : UpDown) (lt : ℤ)
    (c : Counts) : UpDown × ℤ × Counts :=
  match lk, lh with
  | some k, some hp =>
    if jgt k.y (jaddc hp.y 40) && (st == .up) && decide (500 < now - lt) then
      (.down, lt, c)
    else if jlt k.y (jaddc hp.y 10) && (st == .down) then
      (.up, now, bufferIncrement c .squats)
    else (st, lt, c)
  | _, _ => (st, lt, c)

/-- The jumping-jack block: wide arm and leg spread while `"closed"`
(debounced by 350 ms) emits and opens; narrow spreads re-close. -/
def jumpingJackCore (lw rw la ra : Option RawKp) (w : ℚ) (now : ℤ)
    (st : JJState) (lt : ℤ) (c : Counts) : JJState × ℤ × Counts :=
  match lw, rw, la, ra with
  | some a, some b, some l, some r =>
    let arm := jabs (jsub a.x b.x)
    let leg := jabs (jsub l.x r.x)
    if jgt arm (.fin (w * 0.34)) && jgt leg (.fin (w * 0.18)) &&
        (st == .jclosed) && decide (350 < now - lt) then
      (.jopen, now, bufferIncrement c .jumpingJacks)
    else if jlt arm (.fin (w * 0.12)) && jlt leg (.fin (w * 0.06)) then
      (.jclosed, lt, c)
    else (st, lt, c)
  | _, _, _, _ => (st, lt, c)

/-- The lunge block: knee-hip vertical distance above 80 with the knee
ahead of the hip while `"up"` (debounced by 500 ms) moves to `"down"`
silently; distance below 40 while `"down"` emits and returns to `"up"`. -/
def lungeCore (rk rh : Option RawKp) (now : ℤ) (st : UpDown) (lt : ℤ)
    (c : Counts) : UpDown × ℤ × Counts :=
  match rk, rh with
  | some k, some hp =>
    let d := jabs (jsub k.y hp.y)
    if jgt d (.fin 80) && jgt k.x (jaddc hp.x 10) && (st == .up) &&
        decide (500 < now - lt) then
      (.down, lt, c)
    else if jlt d (.fin 40) && (st == .down) then
      (.up, now, bufferIncrement c .lunges)
    else (st, lt, c)
  | _, _ => (st, lt, c)

/-- The seven detector blocks of `detectAndProcess`, in source order,
threading the local count buffer through them. -/
def detCore (f : FilteredFrame) (d : DetectorState) (c : Counts) :
    DetectorState × Counts :=
  let r1 := handLiftCore f.leftWrist f.leftShoulder d.handLifted c
  let r2 := blinkCore f.leftEye f.rightEye f.nose f.now d.blinkDetected d.ltBlink r1.2
  let r3 := pushUpCore f.rightShoulder f.height f.now d.pushUpState d.ltPushUp r2.2.2
  let r4 :=
    highJumpCore f.leftAnkle f.rightAnkle f.height f.now d.highJumpState
      d.ltHighJump r3.2.2
  let r5 := squatCore f.leftKnee f.leftHip f.now d.squatState d.ltSquat r4.2.2
  let r6 :=
    jumpingJackCore f.leftWrist f.rightWrist f.leftAnkle f.rightAnkle f.width
      f.now d.jumpingJackState d.ltJumpingJack r5.2.2
  let r7 := lungeCore f.rightKnee f.rightHip f.now d.lungeState d.ltLunge r6.2.2
  ({ handLifted := r1.1, blinkDetected := r2.1, pushUpState := r3.1,
     highJumpState := r4.1, squatState := r5.1, jumpingJackState := r6.1,
     lungeState := r7.1, ltBlink := r2.2.1, ltPushUp := r3.2.1,
     ltHighJump := r4.2.1, ltSquat := r5.2.1, ltJumpingJack := r6.2.1,
     ltLunge := r7.2.1 }, r7.2.2)

/-- `flushCountsToContext`: a no-op before 800 ms have elapsed since the
last flush; otherwise records the flush time and copies every differing
local count into the published context counts. -/
def flushCountsToContext (s : SysState) (now : ℤ) : SysState :=
  if now - s.lastContextFlush < 800 then s
  else
    { s with
      lastContextFlush := now
      contextCounts := fun k =>
        if s.localCounts k ≠ s.contextCounts k then s.localCounts k
        else s.contextCounts k }

/-- One full `detectAndProcess` step on an already-filtered frame: run the
seven detector blocks, then attempt a flush at the frame's timestamp. -/
def detectAndProcess (f : FilteredFrame) (s : SysState) : SysState :=
  let r := detCore f s.det s.localCounts
  flushCountsToContext { s with det := r.1, localCounts := r.2 } f.now

/-- One full step on a raw pose frame (filter, then process). -/
def detectAndProcessRaw (f : PoseFrame) (s : SysState) : SysState :=
  detectAndProcess (filterFrame f) s

/-- Processing a sequence of filtered frames in arrival order. -/
def processFrames (s : SysState) (fs : List FilteredFrame) : SysState :=
  fs.foldl (fun s f => detectAndProcess f s) s

/-- Processing a sequence of raw pose frames in arrival order. -/
def processFramesRaw (s : SysState) (fs : List PoseFrame) : SysState :=
  fs.foldl (fun s f => detectAndProcessRaw f s) s

/-- The timestamps at which a run emits a repetition event for exercise
`d` (an emission is visible as an increment of the local buffer). -/
def emitTimes (d : Exercise) : SysState → List FilteredFrame → List ℤ
  | _, [] => []
  | s, f :: fs =>
    let s' := detectAndProcess f s
    if s'.localCounts d ≠ s.localCounts d then f.now :: emitTimes d s' fs
    else emitTimes d s' fs

/-- The timestamps at which a run flushes to the published store (the
steps where the 800 ms guard of `flushCountsToContext` passes). -/
def flushTimes : SysState → List FilteredFrame → List ℤ
  | _, [] => []
  | s, f :: fs =>
    let s' := detectAndProcess f s
    if 800 ≤ f.now - s.lastContextFlush then f.now :: flushTimes s' fs
    else flushTimes s' fs

/-- Modelled from the spec: the explicit reset operation of §6 ("Session
control: an explicit reset operation zeroes all ExerciseState and
CountEntry values (both buffer and store)"). No reset is present in the
provided sources (only callers outside them could hold it), so it is
modelled faithfully from the spec's words: every detector returns to its
documented rest state and both count tables are zeroed. -/
def resetWorkout (s : SysState) : SysState :=
  { det := initDetectorState, localCounts := zeroCounts,
    contextCounts := zeroCounts, lastContextFlush := s.lastContextFlush }

/-- The per-detector debounce intervals (ms); the hand lift is
edge-triggered with no debounce. -/
def debounceOf : Exercise → ℤ
  | .handLifts => 0
  | .eyeBlinks => 250
  | .pushUps => 400
  | .highJumps => 500
  | .squats => 500
  | .jumpingJacks => 350
  | .lunges => 500

/-- Folding only the detector blocks (no flush) over a frame sequence;
`detectAndProcess` runs exactly this on the `(det, localCounts)` part. -/
def detFold (p : DetectorState × Counts) (fs : List FilteredFrame) :
    DetectorState × Counts :=
  fs.foldl (fun p f => detCore f p.1 p.2) p

/-! ### Frame classification for the single-cycle property

For each detector, the geometric condition of its table row that drives
it towards its "active" phase, and the one that returns it to rest, read
off the corresponding source block. -/

/-- Hand lift enter condition: `wrist.y < shoulder.y + 10`. -/
def hlActive (f : FilteredFrame) : Bool :=
  match f.leftWrist, f.leftShoulder with
  | some w, some sh => jlt w.y (jaddc sh.y 10)
  | _, _ => false

/-- Hand lift rest condition: `wrist.y ≥ shoulder.y + 10`. -/
def hlRest (f : FilteredFrame) : Bool :=
  match f.leftWrist, f.leftShoulder with
  | some w, some sh => jge w.y (jaddc sh.y 10)
  | _, _ => false

/-- Blink enter condition: mean eye-to-nose distance `< 80`. -/
def blinkActive (f : FilteredFrame) : Bool :=
  match f.leftEye, f.rightEye, f.nose with
  | some l, some r, some ns =>
    earAvgLt (jhypot (jsub l.x ns.x) (jsub l.y ns.y))
      (jhypot (jsub r.x ns.x) (jsub r.y ns.y)) 80
  | _, _, _ => false

/-- Blink rest condition: mean eye-to-nose distance `> 95`. -/
def blinkRest (f : FilteredFrame) : Bool :=
  match f.leftEye, f.rightEye, f.nose with
  | some l, some r, some ns =>
    earAvgGt (jhypot (jsub l.x ns.x) (jsub l.y ns.y))
      (jhypot (jsub r.x ns.x) (jsub r.y ns.y)) 95
  | _, _, _ => false

/-- Push-up "down"-phase condition: `shoulderY > 0.45·frameHeight`. -/
def puActive (f : FilteredFrame) : Bool :=
  match f.rightShoulder with
  | some kp => jgt kp.y (.fin (f.height * 0.45))
  | none => false

/-- Push-up "up"/emit condition: `shoulderY < 0.25·frameHeight`. -/
def puRest (f : FilteredFrame) : Bool :=
  match f.rightShoulder with
  | some kp => jlt kp.y (.fin (f.height * 0.25))
  | none => false

/-- High jump "up"/emit condition: mean ankle `y < 0.24·frameHeight`. -/
def hjActive (f : FilteredFrame) : Bool :=
  match f.leftAnkle, f.rightAnkle with
  | some l, some r => jlt (javg l.y r.y) (.fin (f.height * 0.24))
  | _, _ => false

/-- High jump rest condition: mean ankle `y > 0.66·frameHeight`. -/
def hjRest (f : FilteredFrame) : Bool :=
  match f.leftAnkle, f.rightAnkle with
  | some l, some r => jgt (javg l.y r.y) (.fin (f.height * 0.66))
  | _, _ => false

/-- Squat "down"-phase condition: `knee.y > hip.y + 40`. -/
def sqActive (f : FilteredFrame) : Bool :=
  match f.leftKnee, f.leftHip with
  | some k, some hp => jgt k.y (jaddc hp.y 40)
  | _, _ => false

/-- Squat "up"/emit condition: `knee.y < hip.y + 10`. -/
def sqRest (f : FilteredFrame) : Bool :=
  match f.leftKnee, f.leftHip with
  | some k, some hp => jlt k.y (jaddc hp.y 10)
  | _, _ => false

/-- Jumping jack "open"/emit condition: wide arm and leg spreads. -/
def jjActive (f : FilteredFrame) : Bool :=
  match f.leftWrist, f.rightWrist, f.leftAnkle, f.rightAnkle with
  | some a, some b, some l, some r =>
    jgt (jabs (jsub a.x b.x)) (.fin (f.width * 0.34)) &&
      jgt (jabs (jsub l.x r.x)) (.fin (f.width * 0.18))
  | _, _, _, _ => false

/-- Jumping jack rest ("closed") condition: narrow arm and leg spreads. -/
def jjRest (f : FilteredFrame) : Bool :=
  match f.leftWrist, f.rightWrist, f.leftAnkle, f.rightAnkle with
  | some a, some b, some l, some r =>
    jlt (jabs (jsub a.x b.x)) (.fin (f.width * 0.12)) &&
      jlt (jabs (jsub l.x r.x)) (.fin (f.width * 0.06))
  | _, _, _, _ => false

/-- Lunge "down"-phase condition: `|knee.y − hip.y| > 80` and
`knee.x > hip.x + 10`. -/
def luActive (f : FilteredFrame) : Bool :=
  match f.rightKnee, f.rightHip with
  | some k, some hp =>
    jgt (jabs (jsub k.y hp.y)) (.fin 80) && jgt k.x (jaddc hp.x 10)
  | _, _ => false

/-- Lunge "up"/emit condition: `|knee.y − hip.y| < 40`. -/
def luRest (f : FilteredFrame) : Bool :=
  match f.rightKnee, f.rightHip with
  | some k, some hp => jlt (jabs (jsub k.y hp.y)) (.fin 40)
  | _, _ => false

/-- The "towards active" condition of a detector's table row. -/
def activeCond : Exercise → FilteredFrame → Bool
  | .handLifts => hlActive
  | .eyeBlinks => blinkActive
  | .pushUps => puActive
  | .highJumps => hjActive
  | .squats => sqActive
  | .jumpingJacks => jjActive
  | .lunges => luActive

/-- The "back to rest" condition of a detector's table row. -/
def restCond : Exercise → FilteredFrame → Bool
  | .handLifts => hlRest
  | .eyeBlinks => blinkRest
  | .pushUps => puRest
  | .highJumps => hjRest
  | .squats => sqRest
  | .jumpingJacks => jjRest
  | .lunges => luRest

/-- A frame supplies keypoints only for the given detector's trigger
keypoints: every other fetched keypoint is absent. -/
def triggerFree : Exercise → FilteredFrame → Prop
  | .handLifts, f =>
    f.rightWrist = none ∧ f.rightShoulder = none ∧ f.leftEye = none ∧
    f.rightEye = none ∧ f.nose = none ∧ f.leftAnkle = none ∧
    f.rightAnkle = none ∧ f.leftKnee = none ∧ f.leftHip = none ∧
    f.rightKnee = none ∧ f.rightHip = none
  | .eyeBlinks, f =>
    f.leftWrist = none ∧ f.rightWrist = none ∧ f.leftShoulder = none ∧
    f.rightShoulder = none ∧ f.leftAnkle = none ∧ f.rightAnkle = none ∧
    f.leftKnee = none ∧ f.leftHip = none ∧ f.rightKnee = none ∧
    f.rightHip = none
  | .pushUps, f =>
    f.leftWrist = none ∧ f.rightWrist = none ∧ f.leftShoulder = none ∧
    f.leftEye = none ∧ f.rightEye = none ∧ f.nose = none ∧
    f.leftAnkle = none ∧ f.rightAnkle = none ∧ f.leftKnee = none ∧
    f.leftHip = none ∧ f.rightKnee = none ∧ f.rightHip = none
  | .highJumps, f =>
    f.leftWrist = none ∧ f.rightWrist = none ∧ f.leftShoulder = none ∧
    f.rightShoulder = none ∧ f.leftEye = none ∧ f.rightEye = none ∧
    f.nose = none ∧ f.leftKnee = none ∧ f.leftHip = none ∧
    f.rightKnee = none ∧ f.rightHip = none
  | .squats, f =>
    f.leftWrist = none ∧ f.rightWrist = none ∧ f.leftShoulder = none ∧
    f.rightShoulder = none ∧ f.leftEye = none ∧ f.rightEye = none ∧
    f.nose = none ∧ f.leftAnkle = none ∧ f.rightAnkle = none ∧
    f.rightKnee = none ∧ f.rightHip = none
  | .jumpingJacks, f =>
    f.leftShoulder = none ∧ f.rightShoulder = none ∧ f.leftEye = none ∧
    f.rightEye = none ∧ f.nose = none ∧ f.leftKnee = none ∧
    f.leftHip = none ∧ f.rightKnee = none ∧ f.rightHip = none
  | .lunges, f =>
    f.leftWrist = none ∧ f.rightWrist = none ∧ f.leftShoulder = none ∧
    f.rightShoulder = none ∧ f.leftEye = none ∧ f.rightEye = none ∧
    f.nose = none ∧ f.leftAnkle = none ∧ f.rightAnkle = none ∧
    f.leftKnee = none ∧ f.leftHip = none

/-- A well-formed cycle frame for detector `d`: only `d`'s trigger
keypoints present, and positive frame dimensions. -/
def goodFrame (d : Exercise) (f : FilteredFrame) : Prop :=
  triggerFree d f ∧ 0 < f.width ∧ 0 < f.height

/-- The extra premise the amended single-cycle property needs: the
jumping-jack trigger keypoints include the two ankles, which the
high-jump detector also reads, so during a jumping-jack cycle the mean
ankle height must stay out of the high-jump emit region. -/
def hjSafe : Exercise → FilteredFrame → Prop
  | .jumpingJacks, f => hjActive f = false
  | _, _ => True

/-- Frame timestamps spaced beyond the detector's debounce interval, both
between consecutive frames and relative to the initialization instant
(time `0`, the initial `lastTimes` value). -/
def Spaced (d : Exercise) (fs : List FilteredFrame) : Prop :=
  (∀ f ∈ fs, debounceOf d < f.now) ∧
  List.Chain' (fun t1 t2 => t1 + debounceOf d < t2) (fs.map FilteredFrame.now)

/-- A frame sequence realizing exactly one rest→active→rest cycle of
detector `d`'s table row: an optional rest prefix, a nonempty active
block, a nonempty rest suffix, all frames supplying only `d`'s trigger
keypoints, with timestamps spaced beyond `d`'s debounce interval. -/
def CycleSeq (d : Exercise) (fs : List FilteredFrame) : Prop :=
  ∃ A B C, fs = A ++ B ++ C ∧ B ≠ [] ∧ C ≠ [] ∧
    (∀ f ∈ fs, goodFrame d f) ∧ (∀ f ∈ A, restCond d f = true) ∧
    (∀ f ∈ B, activeCond d f = true) ∧ (∀ f ∈ C, restCond d f = true) ∧
    Spaced d fs

/-- A single cycle that additionally keeps the high-jump detector quiet
during jumping-jack cycles (the amendment forced by the counterexample). -/
def CycleSeqSafe (d : Exercise) (fs : List FilteredFrame) : Prop :=
  CycleSeq d fs ∧ ∀ f ∈ fs, hjSafe d f

/-- The detector state during the rest phase of a cycle of `d`, with the
given last-event timestamp for `d` (all other detectors at rest). -/
def restDet : Exercise → ℤ → DetectorState
  | .handLifts, _ => initDetectorState
  | .eyeBlinks, lt => { initDetectorState with ltBlink := lt }
  | .pushUps, lt => { initDetectorState with ltPushUp := lt }
  | .highJumps, lt => { initDetectorState with ltHighJump := lt }
  | .squats, lt => { initDetectorState with ltSquat := lt }
  | .jumpingJacks, lt => { initDetectorState with ltJumpingJack := lt }
  | .lunges, lt => { initDetectorState with ltLunge := lt }

/-- The detector state during the active phase of a cycle of `d`. -/
def activeDet : Exercise → ℤ → DetectorState
  | .handLifts, _ => { initDetectorState with handLifted := true }
  | .eyeBlinks, lt => { initDetectorState with blinkDetected := true, ltBlink := lt }
  | .pushUps, lt => { initDetectorState with pushUpState := .down, ltPushUp := lt }
  | .highJumps, lt => { initDetectorState with highJumpState := .up, ltHighJump := lt }
  | .squats, lt => { initDetectorState with squatState := .down, ltSquat := lt }
  | .jumpingJacks, lt => { initDetectorState with jumpingJackState := .jopen, ltJumpingJack := lt }
  | .lunges, lt => { initDetectorState with lungeState := .down, ltLunge := lt }

/-- Whether the detector emits on entering its active phase (hand lift,
blink, high jump, jumping jack) rather than on returning to rest
(push-up, squat, lunge). -/
def emitOnEntry : Exercise → Bool
  | .handLifts | .eyeBlinks | .highJumps | .jumpingJacks => true
  | _ => false

/-- The `lastTimes` entry belonging to a detector (`0` for the
undebounced hand lift). -/
def ltOf : Exercise → DetectorState → ℤ
  | .handLifts, _ => 0
  | .eyeBlinks, ds => ds.ltBlink
  | .pushUps, ds => ds.ltPushUp
  | .highJumps, ds => ds.ltHighJump
  | .squats, ds => ds.ltSquat
  | .jumpingJacks, ds => ds.ltJumpingJack
  | .lunges, ds => ds.ltLunge

/-- Debounce invariant for the detectors whose debounce guards the
silent transition into the "down" phase rather than the emit itself: if
such a detector is in its "down" phase at time `t`, the down-transition
guard had already passed, so the last emit lies more than one debounce
interval before `t`. -/
def debounceInv : Exercise → DetectorState → ℤ → Prop
  | .pushUps, ds, t => ds.pushUpState = .down → ds.ltPushUp + 400 < t
  | .squats, ds, t => ds.squatState = .down → ds.ltSquat + 500 < t
  | .lunges, ds, t => ds.lungeState = .down → ds.ltLunge + 500 < t
  | _, _, _ => True

/-! ### Concrete data for witnesses and counterexamples -/

/-- A finite keypoint with full confidence, in already-rescaled pixel
coordinates. -/
def mkKp (x y : ℚ) : RawKp := { x := .fin x, y := .fin y, score := some 1 }

/-- A 640×480 filtered frame with no keypoints at all. -/
def emptyFF (t : ℤ) : FilteredFrame :=
  { leftWrist := none, rightWrist := none, leftShoulder := none,
    rightShoulder := none, leftEye := none, rightEye := none, nose := none,
    leftAnkle := none, rightAnkle := none, leftKnee := none, leftHip := none,
    rightKnee := none, rightHip := none, width := 640, height := 480, now := t }

/-- Jumping-jack "open" frame whose ankles also sit in the high-jump
emit region (mean ankle y = 50 < 0.24·480). -/
def jjOpenFrame : FilteredFrame :=
  { emptyFF 1000 with
    leftWrist := some (mkKp 0 0)
    rightWrist := some (mkKp 300 0)
    leftAnkle := some (mkKp 0 50)
    rightAnkle := some (mkKp 200 50) }

/-- Jumping-jack "closed" frame, ankles still high. -/
def jjCloseFrame : FilteredFrame :=
  { emptyFF 1400 with
    leftWrist := some (mkKp 0 0)
    rightWrist := some (mkKp 50 0)
    leftAnkle := some (mkKp 0 50)
    rightAnkle := some (mkKp 30 50) }

/-- Hand-lift active frame (wrist above shoulder). -/
def hlUpFrame : FilteredFrame :=
  { emptyFF 1000 with
    leftWrist := some (mkKp 320 100)
    leftShoulder := some (mkKp 320 150) }

/-- Hand-lift rest frame (wrist back below shoulder + 10). -/
def hlDownFrame : FilteredFrame :=
  { emptyFF 1001 with
    leftWrist := some (mkKp 320 200)
    leftShoulder := some (mkKp 320 150) }

/-- Squat "down" frame (knee well below hip). -/
def sqDownFrame : FilteredFrame :=
  { emptyFF 1000 with
    leftKnee := some (mkKp 320 300)
    leftHip := some (mkKp 320 200) }

/-- Squat "up" frame (knee back level with hip). -/
def sqUpFrame : FilteredFrame :=
  { emptyFF 1600 with
    leftKnee := some (mkKp 320 205)
    leftHip := some (mkKp 320 200) }

/-- Push-up frame with the shoulder low in the image at time `t`. -/
def puLowFrame (t : ℤ) : FilteredFrame :=
  { emptyFF t with rightShoulder := some (mkKp 320 300) }

/-- Push-up frame with the shoulder high in the image at time `t`. -/
def puHighFrame (t : ℤ) : FilteredFrame :=
  { emptyFF t with rightShoulder := some (mkKp 320 100) }

/-- A raw pose frame with no detected keypoints at all. -/
def emptyPoseFrame : PoseFrame :=
  { kps := fun _ => none, width := 640, height := 480, now := 1000 }

/-- A keypoint with an infinite x coordinate and a good score. -/
def infKp : RawKp := { x := .inf, y := .fin 0.5, score := some 0.9 }

/-- A skeleton whose only keypoint is `infKp`, at the left wrist slot. -/
def kpsInf : Fin 17 → Option RawKp := fun i => if i = 9 then some infKp else none

/-- A sample mid-session state for the flush witness: three buffered
push-ups not yet published. -/
def sampleState : SysState :=
  { det := initDetectorState,
    localCounts := fun k => if k = Exercise.pushUps then 3 else 0,
    contextCounts := zeroCounts, lastContextFlush := 0 }

/-! ## Basic lemmas about the count tables and the flush -/

lemma bufferIncrement_self (c : Counts) (e : Exercise) :
    bufferIncrement c e e = c e + 1 := by
  simp [bufferIncrement]

lemma bufferIncrement_ne (c : Counts) (e k : Exercise) (h : k ≠ e) :
    bufferIncrement c e k = c k := by
  simp [bufferIncrement, h]

lemma bufferIncrement_le (c : Counts) (e k : Exercise) :
    c k ≤ bufferIncrement c e k := by
  unfold bufferIncrement
  split <;> omega

lemma flush_det (s : SysState) (now : ℤ) :
    (flushCountsToContext s now).det = s.det := by
  unfold flushCountsToContext
  split <;> rfl

lemma flush_localCounts (s : SysState) (now : ℤ) :
    (flushCountsToContext s now).localCounts = s.localCounts := by
  unfold flushCountsToContext
  split <;> rfl

lemma flush_lastFlush (s : SysState) (now : ℤ) :
    (flushCountsToContext s now).lastContextFlush =
      if now - s.lastContextFlush < 800 then s.lastContextFlush else now := by
  unfold flushCountsToContext
  split <;> simp [*]

lemma flush_contextCounts (s : SysState) (now : ℤ) (k : Exercise) :
    (flushCountsToContext s now).contextCounts k =
      if now - s.lastContextFlush < 800 then s.contextCounts k
      else s.localCounts k := by
  unfold flushCountsToContext
  split
  · rfl
  · show (if s.localCounts k ≠ s.contextCounts k then s.localCounts k
      else s.contextCounts k) = s.localCounts k
    split
    · rfl
    · next h2 => exact (not_not.mp h2).symm

lemma detectAndProcess_det (f : FilteredFrame) (s : SysState) :
    (detectAndProcess f s).det = (detCore f s.det s.localCounts).1 := by
  unfold detectAndProcess
  rw [flush_det]

lemma detectAndProcess_localCounts (f : FilteredFrame) (s : SysState) :
    (detectAndProcess f s).localCounts = (detCore f s.det s.localCounts).2 := by
  unfold detectAndProcess
  rw [flush_localCounts]

lemma detectAndProcess_lastFlush (f : FilteredFrame) (s : SysState) :
    (detectAndProcess f s).lastContextFlush =
      if f.now - s.lastContextFlush < 800 then s.lastContextFlush else f.now := by
  unfold detectAndProcess
  rw [flush_lastFlush]

lemma detectAndProcess_contextCounts (f : FilteredFrame) (s : SysState) (k : Exercise) :
    (detectAndProcess f s).contextCounts k =
      if f.now - s.lastContextFlush < 800 then s.contextCounts k
      else (detCore f s.det s.localCounts).2 k := by
  unfold detectAndProcess
  rw [flush_contextCounts]

/-! ## Exclusion lemmas for the JavaScript comparisons

The hysteresis bands of the detectors rely on the entry and exit
thresholds being mutually exclusive; these lemmas capture that over the
`NaN`/infinity-aware comparisons. -/

lemma jge_false_of_jlt (a b : JsNum) (h : jlt a b = true) : jge a b = false := by
  cases a <;> cases b <;> simp_all [jlt, jge] <;> linarith

lemma jlt_false_of_jge (a b : JsNum) (h : jge a b = true) : jlt a b = false := by
  cases a <;> cases b <;> simp_all [jlt, jge]

lemma jgt_fin_false_of_jlt_fin (a : JsNum) (q1 q2 : ℚ) (hq : q1 ≤ q2)
    (h : jlt a (.fin q1) = true) : jgt a (.fin q2) = false := by
  cases a <;> simp_all [jlt, jgt] <;> linarith

lemma jlt_fin_false_of_jgt_fin (a : JsNum) (q1 q2 : ℚ) (hq : q1 ≤ q2)
    (h : jgt a (.fin q2) = true) : jlt a (.fin q1) = false := by
  cases a <;> simp_all [jlt, jgt] <;> linarith

lemma jgt_jaddc_false_of_jlt_jaddc (a b : JsNum) (q1 q2 : ℚ) (hq : q1 ≤ q2)
    (h : jlt a (jaddc b q1) = true) : jgt a (jaddc b q2) = false := by
  cases a <;> cases b <;> simp_all [jlt, jgt, jaddc] <;> linarith

lemma jlt_jaddc_false_of_jgt_jaddc (a b : JsNum) (q1 q2 : ℚ) (hq : q1 ≤ q2)
    (h : jgt a (jaddc b q2) = true) : jlt a (jaddc b q1) = false := by
  cases a <;> cases b <;> simp_all [jlt, jgt, jaddc] <;> linarith

lemma sqrtSumGt_false_of_sqrtSumLt (a b c1 c2 : ℚ) (hc : c1 ≤ c2)
    (h : sqrtSumLt a b c1 = true) : sqrtSumGt a b c2 = false := by
  simp only [sqrtSumLt, Bool.and_eq_true, decide_eq_true_eq] at h
  obtain ⟨hc1, hd1, hab⟩ := h
  have hcc : c1 ^ 2 ≤ c2 ^ 2 := by nlinarith
  simp only [sqrtSumGt, Bool.or_eq_false_iff, decide_eq_false_iff_not, not_lt]
  refine ⟨by linarith, by nlinarith, by nlinarith⟩

lemma earAvgGt_false_of_earAvgLt (u v : HypotVal) (c1 c2 : ℚ) (hc : c1 ≤ c2)
    (h : earAvgLt u v c1 = true) : earAvgGt u v c2 = false := by
  cases u <;> cases v <;> simp_all [earAvgLt, earAvgGt]
  exact sqrtSumGt_false_of_sqrtSumLt _ _ _ _ (by linarith) h

lemma earAvgLt_false_of_earAvgGt (u v : HypotVal) (c1 c2 : ℚ) (hc : c1 ≤ c2)
    (h : earAvgGt u v c2 = true) : earAvgLt u v c1 = false := by
  by_contra hne
  rw [Bool.not_eq_false] at hne
  rw [earAvgGt_false_of_earAvgLt u v c1 c2 hc hne] at h
  exact Bool.false_ne_true h

lemma debounceOf_nonneg (d : Exercise) : 0 ≤ debounceOf d := by
  cases d <;> decide

/-! ## Count bookkeeping of the seven detector blocks

Each block touches only its own exercise's count; the local buffer never
decreases. -/

lemma handLiftCore_counts (lw ls : Option RawKp) (st : Bool) (c : Counts)
    (k : Exercise) (hk : k ≠ .handLifts) : (handLiftCore lw ls st c).2 k = c k := by
  cases lw <;> cases ls <;>
    simp only [handLiftCore] <;>
    (try split) <;> (try split) <;>
    simp [bufferIncrement_ne _ _ _ hk]

lemma blinkCore_counts (le re n : Option RawKp) (now : ℤ) (st : Bool) (lt : ℤ)
    (c : Counts) (k : Exercise) (hk : k ≠ .eyeBlinks) :
    (blinkCore le re n now st lt c).2.2 k = c k := by
  cases le <;> cases re <;> cases n <;>
    simp only [blinkCore] <;>
    (try split) <;> (try split) <;>
    simp [bufferIncrement_ne _ _ _ hk]

lemma pushUpCore_counts (rs : Option RawKp) (h : ℚ) (now : ℤ) (st : UpDown)
    (lt : ℤ) (c : Counts) (k : Exercise) (hk : k ≠ .pushUps) :
    (pushUpCore rs h now st lt c).2.2 k = c k := by
  cases rs <;>
    simp only [pushUpCore] <;>
    (try split) <;> (try split) <;>
    simp [bufferIncrement_ne _ _ _ hk]

lemma highJumpCore_counts (la ra : Option RawKp) (h : ℚ) (now : ℤ) (st : UpDown)
    (lt : ℤ) (c : Counts) (k : Exercise) (hk : k ≠ .highJumps) :
    (highJumpCore la ra h now st lt c).2.2 k = c k := by
  cases la <;> cases ra <;>
    simp only [highJumpCore] <;>
    (try split) <;> (try split) <;>
    simp [bufferIncrement_ne _ _ _ hk]

lemma squatCore_counts (lk lh : Option RawKp) (now : ℤ) (st : UpDown)
    (lt : ℤ) (c : Counts) (k : Exercise) (hk : k ≠ .squats) :
    (squatCore lk lh now st lt c).2.2 k = c k := by
  cases lk <;> cases lh <;>
    simp only [squatCore] <;>
    (try split) <;> (try split) <;>
    simp [bufferIncrement_ne _ _ _ hk]

lemma jumpingJackCore_counts (lw rw la ra : Option RawKp) (w : ℚ) (now : ℤ)
    (st : JJState) (lt : ℤ) (c : Counts) (k : Exercise) (hk : k ≠ .jumpingJacks) :
    (jumpingJackCore lw rw la ra w now st lt c).2.2 k = c k := by
  cases lw <;> cases rw <;> cases la <;> cases ra <;>
    simp only [jumpingJackCore] <;>
    (try split) <;> (try split) <;>
    simp [bufferIncrement_ne _ _ _ hk]

lemma lungeCore_counts (rk rh : Option RawKp) (now : ℤ) (st : UpDown)
    (lt : ℤ) (c : Counts) (k : Exercise) (hk : k ≠ .lunges) :
    (lungeCore rk rh now st lt c).2.2 k = c k := by
  cases rk <;> cases rh <;>
    simp only [lungeCore] <;>
    (try split) <;> (try split) <;>
    simp [bufferIncrement_ne _ _ _ hk]

lemma handLiftCore_counts_le (lw ls : Option RawKp) (st : Bool) (c : Counts)
    (k : Exercise) : c k ≤ (handLiftCore lw ls st c).2 k := by
  cases lw <;> cases ls <;>
    simp only [handLiftCore] <;>
    (try split) <;> (try split) <;>
    first
    | exact le_refl _
    | exact bufferIncrement_le _ _ _

lemma blinkCore_counts_le (le re n : Option RawKp) (now : ℤ) (st : Bool)
    (lt : ℤ) (c : Counts) (k : Exercise) :
    c k ≤ (blinkCore le re n now st lt c).2.2 k := by
  cases le <;> cases re <;> cases n <;>
    simp only [blinkCore] <;>
    (try split) <;> (try split) <;>
    first
    | exact le_refl _
    | exact bufferIncrement_le _ _ _

lemma pushUpCore_counts_le (rs : Option RawKp) (h : ℚ) (now : ℤ) (st : UpDown)
    (lt : ℤ) (c : Counts) (k : Exercise) :
    c k ≤ (pushUpCore rs h now st lt c).2.2 k := by
  cases rs <;>
    simp only [pushUpCore] <;>
    (try split) <;> (try split) <;>
    first
    | exact le_refl _
    | exact bufferIncrement_le _ _ _

lemma highJumpCore_counts_le (la ra : Option RawKp) (h : ℚ) (now : ℤ)
    (st : UpDown) (lt : ℤ) (c : Counts) (k : Exercise) :
    c k ≤ (highJumpCore la ra h now st lt c).2.2 k := by
  cases la <;> cases ra <;>
    simp only [highJumpCore] <;>
    (try split) <;> (try split) <;>
    first
    | exact le_refl _
    | exact bufferIncrement_le _ _ _

lemma squatCore_counts_le (lk lh : Option RawKp) (now : ℤ) (st : UpDown)
    (lt : ℤ) (c : Counts) (k : Exercise) :
    c k ≤ (squatCore lk lh now st lt c).2.2 k := by
  cases lk <;> cases lh <;>
    simp only [squatCore] <;>
    (try split) <;> (try split) <;>
    first
    | exact le_refl _
    | exact bufferIncrement_le _ _ _

lemma jumpingJackCore_counts_le (lw rw la ra : Option RawKp) (w : ℚ) (now : ℤ)
    (st : JJState) (lt : ℤ) (c : Counts) (k : Exercise) :
    c k ≤ (jumpingJackCore lw rw la ra w now st lt c).2.2 k := by
  cases lw <;> cases rw <;> cases la <;> cases ra <;>
    simp only [jumpingJackCore] <;>
    (try split) <;> (try split) <;>
    first
    | exact le_refl _
    | exact bufferIncrement_le _ _ _

lemma lungeCore_counts_le (rk rh : Option RawKp) (now : ℤ) (st : UpDown)
    (lt : ℤ) (c : Counts) (k : Exercise) :
    c k ≤ (lungeCore rk rh now st lt c).2.2 k := by
  cases rk <;> cases rh <;>
    simp only [lungeCore] <;>
    (try split) <;> (try split) <;>
    first
    | exact le_refl _
    | exact bufferIncrement_le _ _ _

lemma detCore_counts_le (f : FilteredFrame) (d : DetectorState) (c : Counts)
    (k : Exercise) : c k ≤ (detCore f d c).2 k := by
  unfold detCore
  dsimp only
  exact le_trans (handLiftCore_counts_le _ _ _ _ _)
    (le_trans (blinkCore_counts_le _ _ _ _ _ _ _ _)
      (le_trans (pushUpCore_counts_le _ _ _ _ _ _ _)
        (le_trans (highJumpCore_counts_le _ _ _ _ _ _ _ _)
          (le_trans (squatCore_counts_le _ _ _ _ _ _ _)
            (le_trans (jumpingJackCore_counts_le _ _ _ _ _ _ _ _ _ _)
              (lungeCore_counts_le _ _ _ _ _ _ _))))))

/-! ## Evaluation lemmas for constructor comparisons -/

@[simp] lemma beq_up_up : (UpDown.up == UpDown.up) = true := rfl

@[simp] lemma beq_up_down : (UpDown.up == UpDown.down) = false := rfl

@[simp] lemma beq_down_up : (UpDown.down == UpDown.up) = false := rfl

@[simp] lemma beq_down_down : (UpDown.down == UpDown.down) = true := rfl

@[simp] lemma beq_jopen_jopen : (JJState.jopen == JJState.jopen) = true := rfl

@[simp] lemma beq_jopen_jclosed : (JJState.jopen == JJState.jclosed) = false := rfl

@[simp] lemma beq_jclosed_jopen : (JJState.jclosed == JJState.jopen) = false := rfl

@[simp] lemma beq_jclosed_jclosed : (JJState.jclosed == JJState.jclosed) = true := rfl

/-! ## Single-frame behaviour of the detector pipeline during a cycle

For frames that carry only one detector's trigger keypoints, `detCore`
acts exactly as that detector's two-state machine; the four lemmas below
cover resting, entering the active phase, staying active, and returning
to rest. -/

lemma detCore_rest_noop (d : Exercise) (f : FilteredFrame) (lt : ℤ) (c : Counts)
    (hg : goodFrame d f) (hs : hjSafe d f) (hr : restCond d f = true) :
    detCore f (restDet d lt) c = (restDet d lt, c) := by
  cases d with
  | handLifts =>
    obtain ⟨⟨e1, e2, e3, e4, e5, e6, e7, e8, e9, e10, e11⟩, hw, hh⟩ := hg
    cases hlw : f.leftWrist with
    | none => simp [restCond, hlRest, hlw] at hr
    | some w =>
      cases hls : f.leftShoulder with
      | none => simp [restCond, hlRest, hlw, hls] at hr
      | some sh =>
        simp only [restCond, hlRest, hlw, hls] at hr
        have hex := jlt_false_of_jge _ _ hr
        simp [detCore, restDet, initDetectorState, e1, e2, e3, e4, e5, e6, e7,
          e8, e9, e10, e11, hlw, hls, hex, hr, handLiftCore, blinkCore,
          pushUpCore, highJumpCore, squatCore, jumpingJackCore, lungeCore]
  | eyeBlinks =>
    obtain ⟨⟨e1, e2, e3, e4, e5, e6, e7, e8, e9, e10⟩, hw, hh⟩ := hg
    cases hle : f.leftEye with
    | none => simp [restCond, blinkRest, hle] at hr
    | some l =>
      cases hre : f.rightEye with
      | none => simp [restCond, blinkRest, hle, hre] at hr
      | some r =>
        cases hn : f.nose with
        | none => simp [restCond, blinkRest, hle, hre, hn] at hr
        | some ns =>
          simp only [restCond, blinkRest, hle, hre, hn] at hr
          have hex := earAvgLt_false_of_earAvgGt _ _ 80 95 (by norm_num) hr
          simp [detCore, restDet, initDetectorState, e1, e2, e3, e4, e5, e6,
            e7, e8, e9, e10, hle, hre, hn, hex, hr, handLiftCore, blinkCore,
            pushUpCore, highJumpCore, squatCore, jumpingJackCore, lungeCore]
  | pushUps =>
    obtain ⟨⟨e1, e2, e3, e4, e5, e6, e7, e8, e9, e10, e11, e12⟩, hw, hh⟩ := hg
    cases hrs : f.rightShoulder with
    | none => simp [restCond, puRest, hrs] at hr
    | some kp =>
      simp only [restCond, puRest, hrs] at hr
      have hq : f.height * 0.25 ≤ f.height * 0.45 := by nlinarith
      have hex := jgt_fin_false_of_jlt_fin kp.y _ _ hq hr
      simp [detCore, restDet, initDetectorState, e1, e2, e3, e4, e5, e6, e7,
        e8, e9, e10, e11, e12, hrs, hex, handLiftCore, blinkCore, pushUpCore,
        highJumpCore, squatCore, jumpingJackCore, lungeCore]
  | highJumps =>
    obtain ⟨⟨e1, e2, e3, e4, e5, e6, e7, e8, e9, e10, e11⟩, hw, hh⟩ := hg
    cases hla : f.leftAnkle with
    | none => simp [restCond, hjRest, hla] at hr
    | some l =>
      cases hra : f.rightAnkle with
      | none => simp [restCond, hjRest, hla, hra] at hr
      | some r =>
        simp only [restCond, hjRest, hla, hra] at hr
        have hq : f.height * 0.24 ≤ f.height * 0.66 := by nlinarith
        have hex := jlt_fin_false_of_jgt_fin (javg l.y r.y) _ _ hq hr
        simp [detCore, restDet, initDetectorState, e1, e2, e3, e4, e5, e6, e7,
          e8, e9, e10, e11, hla, hra, hex, hr, handLiftCore, blinkCore,
          pushUpCore, highJumpCore, squatCore, jumpingJackCore, lungeCore]
  | squats =>
    obtain ⟨⟨e1, e2, e3, e4, e5, e6, e7, e8, e9, e10, e11⟩, hw, hh⟩ := hg
    cases hlk : f.leftKnee with
    | none => simp [restCond, sqRest, hlk] at hr
    | some k =>
      cases hlh : f.leftHip with
      | none => simp [restCond, sqRest, hlk, hlh] at hr
      | some hp =>
        simp only [restCond, sqRest, hlk, hlh] at hr
        have hex := jgt_jaddc_false_of_jlt_jaddc k.y hp.y 10 40 (by norm_num) hr
        simp [detCore, restDet, initDetectorState, e1, e2, e3, e4, e5, e6, e7,
          e8, e9, e10, e11, hlk, hlh, hex, hr, handLiftCore, blinkCore,
          pushUpCore, highJumpCore, squatCore, jumpingJackCore, lungeCore]
  | jumpingJacks =>
    obtain ⟨⟨e1, e2, e3, e4, e5, e6, e7, e8, e9⟩, hw, hh⟩ := hg
    cases hlw : f.leftWrist with
    | none => simp [restCond, jjRest, hlw] at hr
    | some a =>
      cases hrw : f.rightWrist with
      | none => simp [restCond, jjRest, hlw, hrw] at hr
      | some b =>
        cases hla : f.leftAnkle with
        | none => simp [restCond, jjRest, hlw, hrw, hla] at hr
        | some l =>
          cases hra : f.rightAnkle with
          | none => simp [restCond, jjRest, hlw, hrw, hla, hra] at hr
          | some r =>
            simp only [restCond, jjRest, hlw, hrw, hla, hra,
              Bool.and_eq_true] at hr
            obtain ⟨hr1, hr2⟩ := hr
            have hq1 : f.width * 0.12 ≤ f.width * 0.34 := by nlinarith
            have hex1 := jgt_fin_false_of_jlt_fin (jabs (jsub a.x b.x)) _ _ hq1 hr1
            have hsafe : jlt (javg l.y r.y) (.fin (f.height * 0.24)) = false := by
              simp only [hjSafe, hjActive, hla, hra] at hs
              exact hs
            simp [detCore, restDet, initDetectorState, e1, e2, e3, e4, e5, e6,
              e7, e8, e9, hlw, hrw, hla, hra, hex1, hr1, hr2, hsafe,
              handLiftCore, blinkCore, pushUpCore, highJumpCore, squatCore,
              jumpingJackCore, lungeCore]
  | lunges =>
    obtain ⟨⟨e1, e2, e3, e4, e5, e6, e7, e8, e9, e10, e11⟩, hw, hh⟩ := hg
    cases hrk : f.rightKnee with
    | none => simp [restCond, luRest, hrk] at hr
    | some k =>
      cases hrh : f.rightHip with
      | none => simp [restCond, luRest, hrk, hrh] at hr
      | some hp =>
        simp only [restCond, luRest, hrk, hrh] at hr
        have hex := jgt_fin_false_of_jlt_fin (jabs (jsub k.y hp.y)) 40 80
          (by norm_num) hr
        simp [detCore, restDet, initDetectorState, e1, e2, e3, e4, e5, e6, e7,
          e8, e9, e10, e11, hrk, hrh, hex, hr, handLiftCore, blinkCore,
          pushUpCore, highJumpCore, squatCore, jumpingJackCore, lungeCore]

lemma detCore_enter (d : Exercise) (f : FilteredFrame) (lt : ℤ) (c : Counts)
    (hg : goodFrame d f) (hs : hjSafe d f) (ha : activeCond d f = true)
    (ht : debounceOf d < f.now - lt) :
    detCore f (restDet d lt) c =
      (activeDet d (if emitOnEntry d then f.now else lt),
       if emitOnEntry d then bufferIncrement c d else c) := by
  cases d with
  | handLifts =>
    obtain ⟨⟨e1, e2, e3, e4, e5, e6, e7, e8, e9, e10, e11⟩, hw, hh⟩ := hg
    cases hlw : f.leftWrist with
    | none => simp [activeCond, hlActive, hlw] at ha
    | some w =>
      cases hls : f.leftShoulder with
      | none => simp [activeCond, hlActive, hlw, hls] at ha
      | some sh =>
        simp only [activeCond, hlActive, hlw, hls] at ha
        simp [detCore, restDet, activeDet, initDetectorState, emitOnEntry, e1,
          e2, e3, e4, e5, e6, e7, e8, e9, e10, e11, hlw, hls, ha, handLiftCore,
          blinkCore, pushUpCore, highJumpCore, squatCore, jumpingJackCore,
          lungeCore]
  | eyeBlinks =>
    obtain ⟨⟨e1, e2, e3, e4, e5, e6, e7, e8, e9, e10⟩, hw, hh⟩ := hg
    simp only [debounceOf] at ht
    cases hle : f.leftEye with
    | none => simp [activeCond, blinkActive, hle] at ha
    | some l =>
      cases hre : f.rightEye with
      | none => simp [activeCond, blinkActive, hle, hre] at ha
      | some r =>
        cases hn : f.nose with
        | none => simp [activeCond, blinkActive, hle, hre, hn] at ha
        | some ns =>
          simp only [activeCond, blinkActive, hle, hre, hn] at ha
          simp [detCore, restDet, activeDet, initDetectorState, emitOnEntry,
            e1, e2, e3, e4, e5, e6, e7, e8, e9, e10, hle, hre, hn, ha, ht,
            handLiftCore, blinkCore, pushUpCore, highJumpCore, squatCore,
            jumpingJackCore, lungeCore]
  | pushUps =>
    obtain ⟨⟨e1, e2, e3, e4, e5, e6, e7, e8, e9, e10, e11, e12⟩, hw, hh⟩ := hg
    simp only [debounceOf] at ht
    cases hrs : f.rightShoulder with
    | none => simp [activeCond, puActive, hrs] at ha
    | some kp =>
      simp only [activeCond, puActive, hrs] at ha
      simp [detCore, restDet, activeDet, initDetectorState, emitOnEntry, e1,
        e2, e3, e4, e5, e6, e7, e8, e9, e10, e11, e12, hrs, ha, ht,
        handLiftCore, blinkCore, pushUpCore, highJumpCore, squatCore,
        jumpingJackCore, lungeCore]
  | highJumps =>
    obtain ⟨⟨e1, e2, e3, e4, e5, e6, e7, e8, e9, e10, e11⟩, hw, hh⟩ := hg
    simp only [debounceOf] at ht
    cases hla : f.leftAnkle with
    | none => simp [activeCond, hjActive, hla] at ha
    | some l =>
      cases hra : f.rightAnkle with
      | none => simp [activeCond, hjActive, hla, hra] at ha
      | some r =>
        simp only [activeCond, hjActive, hla, hra] at ha
        simp [detCore, restDet, activeDet, initDetectorState, emitOnEntry, e1,
          e2, e3, e4, e5, e6, e7, e8, e9, e10, e11, hla, hra, ha, ht,
          handLiftCore, blinkCore, pushUpCore, highJumpCore, squatCore,
          jumpingJackCore, lungeCore]
  | squats =>
    obtain ⟨⟨e1, e2, e3, e4, e5, e6, e7, e8, e9, e10, e11⟩, hw, hh⟩ := hg
    simp only [debounceOf] at ht
    cases hlk : f.leftKnee with
    | none => simp [activeCond, sqActive, hlk] at ha
    | some k =>
      cases hlh : f.leftHip with
      | none => simp [activeCond, sqActive, hlk, hlh] at ha
      | some hp =>
        simp only [activeCond, sqActive, hlk, hlh] at ha
        simp [detCore, restDet, activeDet, initDetectorState, emitOnEntry, e1,
          e2, e3, e4, e5, e6, e7, e8, e9, e10, e11, hlk, hlh, ha, ht,
          handLiftCore, blinkCore, pushUpCore, highJumpCore, squatCore,
          jumpingJackCore, lungeCore]
  | jumpingJacks =>
    obtain ⟨⟨e1, e2, e3, e4, e5, e6, e7, e8, e9⟩, hw, hh⟩ := hg
    simp only [debounceOf] at ht
    cases hlw : f.leftWrist with
    | none => simp [activeCond, jjActive, hlw] at ha
    | some a =>
      cases hrw : f.rightWrist with
      | none => simp [activeCond, jjActive, hlw, hrw] at ha
      | some b =>
        cases hla : f.leftAnkle with
        | none => simp [activeCond, jjActive, hlw, hrw, hla] at ha
        | some l =>
          cases hra : f.rightAnkle with
          | none => simp [activeCond, jjActive, hlw, hrw, hla, hra] at ha
          | some r =>
            simp only [activeCond, jjActive, hlw, hrw, hla, hra,
              Bool.and_eq_true] at ha
            obtain ⟨ha1, ha2⟩ := ha
            have hsafe : jlt (javg l.y r.y) (.fin (f.height * 0.24)) = false := by
              simp only [hjSafe, hjActive, hla, hra] at hs
              exact hs
            simp [detCore, restDet, activeDet, initDetectorState, emitOnEntry,
              e1, e2, e3, e4, e5, e6, e7, e8, e9, hlw, hrw, hla, hra, ha1,
              ha2, ht, hsafe, handLiftCore, blinkCore, pushUpCore,
              highJumpCore, squatCore, jumpingJackCore, lungeCore]
  | lunges =>
    obtain ⟨⟨e1, e2, e3, e4, e5, e6, e7, e8, e9, e10, e11⟩, hw, hh⟩ := hg
    simp only [debounceOf] at ht
    cases hrk : f.rightKnee with
    | none => simp [activeCond, luActive, hrk] at ha
    | some k =>
      cases hrh : f.rightHip with
      | none => simp [activeCond, luActive, hrk, hrh] at ha
      | some hp =>
        simp only [activeCond, luActive, hrk, hrh, Bool.and_eq_true] at ha
        obtain ⟨ha1, ha2⟩ := ha
        simp [detCore, restDet, activeDet, initDetectorState, emitOnEntry, e1,
          e2, e3, e4, e5, e6, e7, e8, e9, e10, e11, hrk, hrh, ha1, ha2, ht,
          handLiftCore, blinkCore, pushUpCore, highJumpCore, squatCore,
          jumpingJackCore, lungeCore]

lemma detCore_active_noop (d : Exercise) (f : FilteredFrame) (lt : ℤ) (c : Counts)
    (hg : goodFrame d f) (hs : hjSafe d f) (ha : activeCond d f = true) :
    detCore f (activeDet d lt) c = (activeDet d lt, c) := by
  cases d with
  | handLifts =>
    obtain ⟨⟨e1, e2, e3, e4, e5, e6, e7, e8, e9, e10, e11⟩, hw, hh⟩ := hg
    cases hlw : f.leftWrist with
    | none => simp [activeCond, hlActive, hlw] at ha
    | some w =>
      cases hls : f.leftShoulder with
      | none => simp [activeCond, hlActive, hlw, hls] at ha
      | some sh =>
        simp only [activeCond, hlActive, hlw, hls] at ha
        have hex := jge_false_of_jlt _ _ ha
        simp [detCore, activeDet, initDetectorState, e1, e2, e3, e4, e5, e6,
          e7, e8, e9, e10, e11, hlw, hls, hex, handLiftCore, blinkCore,
          pushUpCore, highJumpCore, squatCore, jumpingJackCore, lungeCore]
  | eyeBlinks =>
    obtain ⟨⟨e1, e2, e3, e4, e5, e6, e7, e8, e9, e10⟩, hw, hh⟩ := hg
    cases hle : f.leftEye with
    | none => simp [activeCond, blinkActive, hle] at ha
    | some l =>
      cases hre : f.rightEye with
      | none => simp [activeCond, blinkActive, hle, hre] at ha
      | some r =>
        cases hn : f.nose with
        | none => simp [activeCond, blinkActive, hle, hre, hn] at ha
        | some ns =>
          simp only [activeCond, blinkActive, hle, hre, hn] at ha
          have hex := earAvgGt_false_of_earAvgLt _ _ 80 95 (by norm_num) ha
          simp [detCore, activeDet, initDetectorState, e1, e2, e3, e4, e5, e6,
            e7, e8, e9, e10, hle, hre, hn, hex, handLiftCore, blinkCore,
            pushUpCore, highJumpCore, squatCore, jumpingJackCore, lungeCore]
  | pushUps =>
    obtain ⟨⟨e1, e2, e3, e4, e5, e6, e7, e8, e9, e10, e11, e12⟩, hw, hh⟩ := hg
    cases hrs : f.rightShoulder with
    | none => simp [activeCond, puActive, hrs] at ha
    | some kp =>
      simp only [activeCond, puActive, hrs] at ha
      have hq : f.height * 0.25 ≤ f.height * 0.45 := by nlinarith
      have hex := jlt_fin_false_of_jgt_fin kp.y _ _ hq ha
      simp [detCore, activeDet, initDetectorState, e1, e2, e3, e4, e5, e6, e7,
        e8, e9, e10, e11, e12, hrs, hex, handLiftCore, blinkCore, pushUpCore,
        highJumpCore, squatCore, jumpingJackCore, lungeCore]
  | highJumps =>
    obtain ⟨⟨e1, e2, e3, e4, e5, e6, e7, e8, e9, e10, e11⟩, hw, hh⟩ := hg
    cases hla : f.leftAnkle with
    | none => simp [activeCond, hjActive, hla] at ha
    | some l =>
      cases hra : f.rightAnkle with
      | none => simp [activeCond, hjActive, hla, hra] at ha
      | some r =>
        simp only [activeCond, hjActive, hla, hra] at ha
        have hq : f.height * 0.24 ≤ f.height * 0.66 := by nlinarith
        have hex := jgt_fin_false_of_jlt_fin (javg l.y r.y) _ _ hq ha
        simp [detCore, activeDet, initDetectorState, e1, e2, e3, e4, e5, e6,
          e7, e8, e9, e10, e11, hla, hra, hex, handLiftCore, blinkCore,
          pushUpCore, highJumpCore, squatCore, jumpingJackCore, lungeCore]
  | squats =>
    obtain ⟨⟨e1, e2, e3, e4, e5, e6, e7, e8, e9, e10, e11⟩, hw, hh⟩ := hg
    cases hlk : f.leftKnee with
    | none => simp [activeCond, sqActive, hlk] at ha
    | some k =>
      cases hlh : f.leftHip with
      | none => simp [activeCond, sqActive, hlk, hlh] at ha
      | some hp =>
        simp only [activeCond, sqActive, hlk, hlh] at ha
        have hex := jlt_jaddc_false_of_jgt_jaddc k.y hp.y 10 40 (by norm_num) ha
        simp [detCore, activeDet, initDetectorState, e1, e2, e3, e4, e5, e6,
          e7, e8, e9, e10, e11, hlk, hlh, hex, handLiftCore, blinkCore,
          pushUpCore, highJumpCore, squatCore, jumpingJackCore, lungeCore]
  | jumpingJacks =>
    obtain ⟨⟨e1, e2, e3, e4, e5, e6, e7, e8, e9⟩, hw, hh⟩ := hg
    cases hlw : f.leftWrist with
    | none => simp [activeCond, jjActive, hlw] at ha
    | some a =>
      cases hrw : f.rightWrist with
      | none => simp [activeCond, jjActive, hlw, hrw] at ha
      | some b =>
        cases hla : f.leftAnkle with
        | none => simp [activeCond, jjActive, hlw, hrw, hla] at ha
        | some l =>
          cases hra : f.rightAnkle with
          | none => simp [activeCond, jjActive, hlw, hrw, hla, hra] at ha
          | some r =>
            simp only [activeCond, jjActive, hlw, hrw, hla, hra,
              Bool.and_eq_true] at ha
            obtain ⟨ha1, ha2⟩ := ha
            have hq1 : f.width * 0.12 ≤ f.width * 0.34 := by nlinarith
            have hex1 := jlt_fin_false_of_jgt_fin (jabs (jsub a.x b.x)) _ _ hq1 ha1
            have hsafe : jlt (javg l.y r.y) (.fin (f.height * 0.24)) = false := by
              simp only [hjSafe, hjActive, hla, hra] at hs
              exact hs
            simp [detCore, activeDet, initDetectorState, e1, e2, e3, e4, e5,
              e6, e7, e8, e9, hlw, hrw, hla, hra, hex1, hsafe, handLiftCore,
              blinkCore, pushUpCore, highJumpCore, squatCore, jumpingJackCore,
              lungeCore]
  | lunges =>
    obtain ⟨⟨e1, e2, e3, e4, e5, e6, e7, e8, e9, e10, e11⟩, hw, hh⟩ := hg
    cases hrk : f.rightKnee with
    | none => simp [activeCond, luActive, hrk] at ha
    | some k =>
      cases hrh : f.rightHip with
      | none => simp [activeCond, luActive, hrk, hrh] at ha
      | some hp =>
        simp only [activeCond, luActive, hrk, hrh, Bool.and_eq_true] at ha
        obtain ⟨ha1, ha2⟩ := ha
        have hex := jlt_fin_false_of_jgt_fin (jabs (jsub k.y hp.y)) 40 80
          (by norm_num) ha1
        simp [detCore, activeDet, initDetectorState, e1, e2, e3, e4, e5, e6,
          e7, e8, e9, e10, e11, hrk, hrh, hex, handLiftCore, blinkCore,
          pushUpCore, highJumpCore, squatCore, jumpingJackCore, lungeCore]

lemma detCore_exit (d : Exercise) (f : FilteredFrame) (lt : ℤ) (c : Counts)
    (hg : goodFrame d f) (hs : hjSafe d f) (hr : restCond d f = true) :
    detCore f (activeDet d lt) c =
      (restDet d (if emitOnEntry d then lt else f.now),
       if emitOnEntry d then c else bufferIncrement c d) := by
  cases d with
  | handLifts =>
    obtain ⟨⟨e1, e2, e3, e4, e5, e6, e7, e8, e9, e10, e11⟩, hw, hh⟩ := hg
    cases hlw : f.leftWrist with
    | none => simp [restCond, hlRest, hlw] at hr
    | some w =>
      cases hls : f.leftShoulder with
      | none => simp [restCond, hlRest, hlw, hls] at hr
      | some sh =>
        simp only [restCond, hlRest, hlw, hls] at hr
        have hex := jlt_false_of_jge _ _ hr
        simp [detCore, restDet, activeDet, initDetectorState, emitOnEntry, e1,
          e2, e3, e4, e5, e6, e7, e8, e9, e10, e11, hlw, hls, hex, hr,
          handLiftCore, blinkCore, pushUpCore, highJumpCore, squatCore,
          jumpingJackCore, lungeCore]
  | eyeBlinks =>
    obtain ⟨⟨e1, e2, e3, e4, e5, e6, e7, e8, e9, e10⟩, hw, hh⟩ := hg
    cases hle : f.leftEye with
    | none => simp [restCond, blinkRest, hle] at hr
    | some l =>
      cases hre : f.rightEye with
      | none => simp [restCond, blinkRest, hle, hre] at hr
      | some r =>
        cases hn : f.nose with
        | none => simp [restCond, blinkRest, hle, hre, hn] at hr
        | some ns =>
          simp only [restCond, blinkRest, hle, hre, hn] at hr
          simp [detCore, restDet, activeDet, initDetectorState, emitOnEntry,
            e1, e2, e3, e4, e5, e6, e7, e8, e9, e10, hle, hre, hn, hr,
            handLiftCore, blinkCore, pushUpCore, highJumpCore, squatCore,
            jumpingJackCore, lungeCore]
  | pushUps =>
    obtain ⟨⟨e1, e2, e3, e4, e5, e6, e7, e8, e9, e10, e11, e12⟩, hw, hh⟩ := hg
    cases hrs : f.rightShoulder with
    | none => simp [restCond, puRest, hrs] at hr
    | some kp =>
      simp only [restCond, puRest, hrs] at hr
      have hq : f.height * 0.25 ≤ f.height * 0.45 := by nlinarith
      have hex := jgt_fin_false_of_jlt_fin kp.y _ _ hq hr
      simp [detCore, restDet, activeDet, initDetectorState, emitOnEntry, e1,
        e2, e3, e4, e5, e6, e7, e8, e9, e10, e11, e12, hrs, hex, hr,
        handLiftCore, blinkCore, pushUpCore, highJumpCore, squatCore,
        jumpingJackCore, lungeCore]
  | highJumps =>
    obtain ⟨⟨e1, e2, e3, e4, e5, e6, e7, e8, e9, e10, e11⟩, hw, hh⟩ := hg
    cases hla : f.leftAnkle with
    | none => simp [restCond, hjRest, hla] at hr
    | some l =>
      cases hra : f.rightAnkle with
      | none => simp [restCond, hjRest, hla, hra] at hr
      | some r =>
        simp only [restCond, hjRest, hla, hra] at hr
        simp [detCore, restDet, activeDet, initDetectorState, emitOnEntry, e1,
          e2, e3, e4, e5, e6, e7, e8, e9, e10, e11, hla, hra, hr,
          handLiftCore, blinkCore, pushUpCore, highJumpCore, squatCore,
          jumpingJackCore, lungeCore]
  | squats =>
    obtain ⟨⟨e1, e2, e3, e4, e5, e6, e7, e8, e9, e10, e11⟩, hw, hh⟩ := hg
    cases hlk : f.leftKnee with
    | none => simp [restCond, sqRest, hlk] at hr
    | some k =>
      cases hlh : f.leftHip with
      | none => simp [restCond, sqRest, hlk, hlh] at hr
      | some hp =>
        simp only [restCond, sqRest, hlk, hlh] at hr
        simp [detCore, restDet, activeDet, initDetectorState, emitOnEntry, e1,
          e2, e3, e4, e5, e6, e7, e8, e9, e10, e11, hlk, hlh, hr,
          handLiftCore, blinkCore, pushUpCore, highJumpCore, squatCore,
          jumpingJackCore, lungeCore]
  | jumpingJacks =>
    obtain ⟨⟨e1, e2, e3, e4, e5, e6, e7, e8, e9⟩, hw, hh⟩ := hg
    cases hlw : f.leftWrist with
    | none => simp [restCond, jjRest, hlw] at hr
    | some a =>
      cases hrw : f.rightWrist with
      | none => simp [restCond, jjRest, hlw, hrw] at hr
      | some b =>
        cases hla : f.leftAnkle with
        | none => simp [restCond, jjRest, hlw, hrw, hla] at hr
        | some l =>
          cases hra : f.rightAnkle with
          | none => simp [restCond, jjRest, hlw, hrw, hla, hra] at hr
          | some r =>
            simp only [restCond, jjRest, hlw, hrw, hla, hra,
              Bool.and_eq_true] at hr
            obtain ⟨hr1, hr2⟩ := hr
            have hsafe : jlt (javg l.y r.y) (.fin (f.height * 0.24)) = false := by
              simp only [hjSafe, hjActive, hla, hra] at hs
              exact hs
            simp [detCore, restDet, activeDet, initDetectorState, emitOnEntry,
              e1, e2, e3, e4, e5, e6, e7, e8, e9, hlw, hrw, hla, hra, hr1,
              hr2, hsafe, handLiftCore, blinkCore, pushUpCore, highJumpCore,
              squatCore, jumpingJackCore, lungeCore]
  | lunges =>
    obtain ⟨⟨e1, e2, e3, e4, e5, e6, e7, e8, e9, e10, e11⟩, hw, hh⟩ := hg
    cases hrk : f.rightKnee with
    | none => simp [restCond, luRest, hrk] at hr
    | some k =>
      cases hrh : f.rightHip with
      | none => simp [restCond, luRest, hrk, hrh] at hr
      | some hp =>
        simp only [restCond, luRest, hrk, hrh] at hr
        simp [detCore, restDet, activeDet, initDetectorState, emitOnEntry, e1,
          e2, e3, e4, e5, e6, e7, e8, e9, e10, e11, hrk, hrh, hr,
          handLiftCore, blinkCore, pushUpCore, highJumpCore, squatCore,
          jumpingJackCore, lungeCore]

/-! ## Folding the pipeline over a cycle -/

lemma restDet_zero (d : Exercise) : restDet d 0 = initDetectorState := by
  cases d <;> rfl

lemma detFold_nil (p : DetectorState × Counts) : detFold p [] = p := rfl

lemma detFold_cons (p : DetectorState × Counts) (f : FilteredFrame)
    (fs : List FilteredFrame) :
    detFold p (f :: fs) = detFold (detCore f p.1 p.2) fs := rfl

lemma detFold_append (p : DetectorState × Counts) (l1 l2 : List FilteredFrame) :
    detFold p (l1 ++ l2) = detFold (detFold p l1) l2 := by
  unfold detFold
  exact List.foldl_append _ _ _ _

lemma detFold_noop (S : DetectorState) (P : FilteredFrame → Prop)
    (hstep : ∀ f c, P f → detCore f S c = (S, c)) :
    ∀ (fs : List FilteredFrame), (∀ f ∈ fs, P f) →
      ∀ c, detFold (S, c) fs = (S, c) := by
  intro fs
  induction fs with
  | nil => intro _ c; rfl
  | cons f fs ih =>
    intro hmem c
    rw [detFold_cons]
    simp only
    rw [hstep f c (hmem f (List.mem_cons_self f fs))]
    exact ih (fun g hg => hmem g (List.mem_cons_of_mem f hg)) c

lemma processFrames_nil (s : SysState) : processFrames s [] = s := rfl

lemma processFrames_cons (s : SysState) (f : FilteredFrame)
    (fs : List FilteredFrame) :
    processFrames s (f :: fs) = processFrames (detectAndProcess f s) fs := rfl

/-- The detector state and the local buffer of a run are computed by the
flush-free fold `detFold`. -/
lemma processFrames_detFold (fs : List FilteredFrame) :
    ∀ s : SysState,
      (processFrames s fs).det = (detFold (s.det, s.localCounts) fs).1 ∧
      (processFrames s fs).localCounts = (detFold (s.det, s.localCounts) fs).2 := by
  induction fs with
  | nil => intro s; exact ⟨rfl, rfl⟩
  | cons f fs ih =>
    intro s
    rw [processFrames_cons, detFold_cons]
    obtain ⟨h1, h2⟩ := ih (detectAndProcess f s)
    rw [h1, h2, detectAndProcess_det, detectAndProcess_localCounts]
    constructor <;> rfl

/-- The single-cycle count behaviour: over a (safety-amended) single
cycle of detector `d`, the flush-free fold started at the fresh detector
state with zero counts ends with exactly one count recorded, for `d`. -/
lemma cycleCounts (d : Exercise) (fs : List FilteredFrame)
    (h : CycleSeqSafe d fs) :
    (detFold (initDetectorState, zeroCounts) fs).2 =
      bufferIncrement zeroCounts d := by
  obtain ⟨⟨A, B, C, hfs, hB, hC, hgood, hA, hBa, hCr, hsp⟩, hsafe⟩ := h
  subst hfs
  have memA : ∀ f ∈ A, f ∈ A ++ B ++ C := by intro f hf; simp [hf]
  have memB : ∀ f ∈ B, f ∈ A ++ B ++ C := by intro f hf; simp [hf]
  have memC : ∀ f ∈ C, f ∈ A ++ B ++ C := by intro f hf; simp [hf]
  rw [detFold_append, detFold_append]
  -- the rest prefix leaves the fresh state untouched
  have hAfold : detFold (initDetectorState, zeroCounts) A =
      (initDetectorState, zeroCounts) := by
    rw [← restDet_zero d]
    refine detFold_noop _ (fun f => goodFrame d f ∧ hjSafe d f ∧ restCond d f = true)
      (fun f c hf => detCore_rest_noop d f 0 c hf.1 hf.2.1 hf.2.2) A
      (fun f hf => ⟨hgood f (memA f hf), hsafe f (memA f hf), hA f hf⟩) _
  rw [hAfold]
  -- the active block: one entering step, then no-ops
  obtain ⟨b, B', rfl⟩ := List.exists_cons_of_ne_nil hB
  have hbmem : b ∈ A ++ b :: B' ++ C := memB b (List.mem_cons_self b B')
  have henter : detCore b initDetectorState zeroCounts =
      (activeDet d (if emitOnEntry d then b.now else 0),
       if emitOnEntry d then bufferIncrement zeroCounts d else zeroCounts) := by
    rw [← restDet_zero d]
    refine detCore_enter d b 0 zeroCounts (hgood b hbmem) (hsafe b hbmem)
      (hBa b (List.mem_cons_self b B')) ?_
    have := hsp.1 b hbmem
    omega
  rw [detFold_cons]
  simp only
  rw [henter]
  have hBfold : detFold
      (activeDet d (if emitOnEntry d then b.now else 0),
       if emitOnEntry d then bufferIncrement zeroCounts d else zeroCounts) B' =
      (activeDet d (if emitOnEntry d then b.now else 0),
       if emitOnEntry d then bufferIncrement zeroCounts d else zeroCounts) := by
    refine detFold_noop _ (fun f => goodFrame d f ∧ hjSafe d f ∧ activeCond d f = true)
      (fun f c hf => detCore_active_noop d f _ c hf.1 hf.2.1 hf.2.2) B'
      (fun f hf => ⟨hgood f (memB f (List.mem_cons_of_mem b hf)),
        hsafe f (memB f (List.mem_cons_of_mem b hf)),
        hBa f (List.mem_cons_of_mem b hf)⟩) _
  rw [hBfold]
  -- the rest suffix: one emitting/re-arming step, then no-ops
  obtain ⟨e, C', rfl⟩ := List.exists_cons_of_ne_nil hC
  have hemem : e ∈ A ++ b :: B' ++ e :: C' := memC e (List.mem_cons_self e C')
  have hexit : detCore e (activeDet d (if emitOnEntry d then b.now else 0))
      (if emitOnEntry d then bufferIncrement zeroCounts d else zeroCounts) =
      (restDet d (if emitOnEntry d then (if emitOnEntry d then b.now else 0) else e.now),
       if emitOnEntry d then (if emitOnEntry d then bufferIncrement zeroCounts d else zeroCounts)
       else bufferIncrement (if emitOnEntry d then bufferIncrement zeroCounts d else zeroCounts) d) :=
    detCore_exit d e _ _ (hgood e hemem) (hsafe e hemem)
      (hCr e (List.mem_cons_self e C'))
  rw [detFold_cons]
  simp only
  rw [hexit]
  have hc2 : (if emitOnEntry d then (if emitOnEntry d then bufferIncrement zeroCounts d else zeroCounts)
      else bufferIncrement (if emitOnEntry d then bufferIncrement zeroCounts d else zeroCounts) d) =
      bufferIncrement zeroCounts d := by
    cases hE : emitOnEntry d <;> simp [hE]
  rw [hc2]
  have hCfold : detFold
      (restDet d (if emitOnEntry d then (if emitOnEntry d then b.now else 0) else e.now),
       bufferIncrement zeroCounts d) C' =
      (restDet d (if emitOnEntry d then (if emitOnEntry d then b.now else 0) else e.now),
       bufferIncrement zeroCounts d) := by
    refine detFold_noop _ (fun f => goodFrame d f ∧ hjSafe d f ∧ restCond d f = true)
      (fun f c hf => detCore_rest_noop d f _ c hf.1 hf.2.1 hf.2.2) C'
      (fun f hf => ⟨hgood f (memC f (List.mem_cons_of_mem e hf)),
        hsafe f (memC f (List.mem_cons_of_mem e hf)),
        hCr f (List.mem_cons_of_mem e hf)⟩) _
  rw [hCfold]

/-! ## Debounce separation machinery

Each debounced block either leaves its count and `lastTimes` entry alone,
or bumps the count by one, stamps the current time, and (directly or via
the down-phase invariant) is more than one debounce interval past the
previous stamp. -/

lemma blinkCore_dich (le re n : Option RawKp) (now : ℤ) (st : Bool) (lt : ℤ)
    (c : Counts) :
    ((blinkCore le re n now st lt c).2.2 .eyeBlinks = c .eyeBlinks ∧
      (blinkCore le re n now st lt c).2.1 = lt) ∨
    ((blinkCore le re n now st lt c).2.2 .eyeBlinks = c .eyeBlinks + 1 ∧
      (blinkCore le re n now st lt c).2.1 = now ∧ 250 < now - lt) := by
  cases le with
  | none => left; exact ⟨rfl, rfl⟩
  | some l =>
    cases re with
    | none => left; exact ⟨rfl, rfl⟩
    | some r =>
      cases n with
      | none => left; exact ⟨rfl, rfl⟩
      | some ns =>
        simp only [blinkCore]
        split
        · next h1 =>
          simp only [Bool.and_eq_true, decide_eq_true_eq] at h1
          right
          exact ⟨bufferIncrement_self c .eyeBlinks, rfl, h1.2⟩
        · split
          · left; exact ⟨rfl, rfl⟩
          · left; exact ⟨rfl, rfl⟩

lemma pushUpCore_dich (rs : Option RawKp) (h : ℚ) (now : ℤ) (st : UpDown)
    (lt : ℤ) (c : Counts) :
    ((pushUpCore rs h now st lt c).2.2 .pushUps = c .pushUps ∧
      (pushUpCore rs h now st lt c).2.1 = lt) ∨
    ((pushUpCore rs h now st lt c).2.2 .pushUps = c .pushUps + 1 ∧
      (pushUpCore rs h now st lt c).2.1 = now ∧ st = .down) := by
  cases rs with
  | none => left; exact ⟨rfl, rfl⟩
  | some kp =>
    simp only [pushUpCore]
    split
    · left; exact ⟨rfl, rfl⟩
    · split
      · next h2 =>
        simp only [Bool.and_eq_true, beq_iff_eq] at h2
        right
        exact ⟨bufferIncrement_self c .pushUps, rfl, h2.2⟩
      · left; exact ⟨rfl, rfl⟩

lemma highJumpCore_dich (la ra : Option RawKp) (h : ℚ) (now : ℤ) (st : UpDown)
    (lt : ℤ) (c : Counts) :
    ((highJumpCore la ra h now st lt c).2.2 .highJumps = c .highJumps ∧
      (highJumpCore la ra h now st lt c).2.1 = lt) ∨
    ((highJumpCore la ra h now st lt c).2.2 .highJumps = c .highJumps + 1 ∧
      (highJumpCore la ra h now st lt c).2.1 = now ∧ 500 < now - lt) := by
  cases la with
  | none => left; exact ⟨rfl, rfl⟩
  | some l =>
    cases ra with
    | none => left; exact ⟨rfl, rfl⟩
    | some r =>
      simp only [highJumpCore]
      split
      · next h1 =>
        simp only [Bool.and_eq_true, decide_eq_true_eq] at h1
        right
        exact ⟨bufferIncrement_self c .highJumps, rfl, h1.2⟩
      · split
        · left; exact ⟨rfl, rfl⟩
        · left; exact ⟨rfl, rfl⟩

lemma squatCore_dich (lk lh : Option RawKp) (now : ℤ) (st : UpDown) (lt : ℤ)
    (c : Counts) :
    ((squatCore lk lh now st lt c).2.2 .squats = c .squats ∧
      (squatCore lk lh now st lt c).2.1 = lt) ∨
    ((squatCore lk lh now st lt c).2.2 .squats = c .squats + 1 ∧
      (squatCore lk lh now st lt c).2.1 = now ∧ st = .down) := by
  cases lk with
  | none => left; exact ⟨rfl, rfl⟩
  | some k =>
    cases lh with
    | none => left; exact ⟨rfl, rfl⟩
    | some hp =>
      simp only [squatCore]
      split
      · left; exact ⟨rfl, rfl⟩
      · split
        · next h2 =>
          simp only [Bool.and_eq_true, beq_iff_eq] at h2
          right
          exact ⟨bufferIncrement_self c .squats, rfl, h2.2⟩
        · left; exact ⟨rfl, rfl⟩

lemma jumpingJackCore_dich (lw rw la ra : Option RawKp) (w : ℚ) (now : ℤ)
    (st : JJState) (lt : ℤ) (c : Counts) :
    ((jumpingJackCore lw rw la ra w now st lt c).2.2 .jumpingJacks = c .jumpingJacks ∧
      (jumpingJackCore lw rw la ra w now st lt c).2.1 = lt) ∨
    ((jumpingJackCore lw rw la ra w now st lt c).2.2 .jumpingJacks = c .jumpingJacks + 1 ∧
      (jumpingJackCore lw rw la ra w now st lt c).2.1 = now ∧ 350 < now - lt) := by
  cases lw with
  | none => left; exact ⟨rfl, rfl⟩
  | some a =>
    cases rw with
    | none => left; exact ⟨rfl, rfl⟩
    | some b =>
      cases la with
      | none => left; exact ⟨rfl, rfl⟩
      | some l =>
        cases ra with
        | none => left; exact ⟨rfl, rfl⟩
        | some r =>
          simp only [jumpingJackCore]
          split
          · next h1 =>
            simp only [Bool.and_eq_true, decide_eq_true_eq] at h1
            right
            exact ⟨bufferIncrement_self c .jumpingJacks, rfl, h1.2⟩
          · split
            · left; exact ⟨rfl, rfl⟩
            · left; exact ⟨rfl, rfl⟩

lemma lungeCore_dich (rk rh : Option RawKp) (now : ℤ) (st : UpDown) (lt : ℤ)
    (c : Counts) :
    ((lungeCore rk rh now st lt c).2.2 .lunges = c .lunges ∧
      (lungeCore rk rh now st lt c).2.1 = lt) ∨
    ((lungeCore rk rh now st lt c).2.2 .lunges = c .lunges + 1 ∧
      (lungeCore rk rh now st lt c).2.1 = now ∧ st = .down) := by
  cases rk with
  | none => left; exact ⟨rfl, rfl⟩
  | some k =>
    cases rh with
    | none => left; exact ⟨rfl, rfl⟩
    | some hp =>
      simp only [lungeCore]
      split
      · left; exact ⟨rfl, rfl⟩
      · split
        · next h2 =>
          simp only [Bool.and_eq_true, beq_iff_eq] at h2
          right
          exact ⟨bufferIncrement_self c .lunges, rfl, h2.2⟩
        · left; exact ⟨rfl, rfl⟩

lemma pushUpCore_inv (rs : Option RawKp) (h : ℚ) (now : ℤ) (st : UpDown)
    (lt : ℤ) (c : Counts) (hI : st = .down → lt + 400 < now) (t : ℤ)
    (ht : now ≤ t) :
    (pushUpCore rs h now st lt c).1 = .down →
      (pushUpCore rs h now st lt c).2.1 + 400 < t := by
  cases rs with
  | none =>
    simp only [pushUpCore]
    intro hst
    have := hI hst
    omega
  | some kp =>
    simp only [pushUpCore]
    split
    · next h1 =>
      intro _
      simp only [Bool.and_eq_true, decide_eq_true_eq] at h1
      dsimp only
      have := h1.2
      omega
    · split
      · intro hst
        dsimp only at hst
        exact UpDown.noConfusion hst
      · intro hst
        dsimp only at hst ⊢
        have := hI hst
        omega

lemma squatCore_inv (lk lh : Option RawKp) (now : ℤ) (st : UpDown) (lt : ℤ)
    (c : Counts) (hI : st = .down → lt + 500 < now) (t : ℤ) (ht : now ≤ t) :
    (squatCore lk lh now st lt c).1 = .down →
      (squatCore lk lh now st lt c).2.1 + 500 < t := by
  cases lk with
  | none =>
    simp only [squatCore]
    intro hst
    have := hI hst
    omega
  | some k =>
    cases lh with
    | none =>
      simp only [squatCore]
      intro hst
      have := hI hst
      omega
    | some hp =>
      simp only [squatCore]
      split
      · next h1 =>
        intro _
        simp only [Bool.and_eq_true, decide_eq_true_eq] at h1
        dsimp only
        have := h1.2
        omega
      · split
        · intro hst
          dsimp only at hst
          exact UpDown.noConfusion hst
        · intro hst
          dsimp only at hst ⊢
          have := hI hst
          omega

lemma lungeCore_inv (rk rh : Option RawKp) (now : ℤ) (st : UpDown) (lt : ℤ)
    (c : Counts) (hI : st = .down → lt + 500 < now) (t : ℤ) (ht : now ≤ t) :
    (lungeCore rk rh now st lt c).1 = .down →
      (lungeCore rk rh now st lt c).2.1 + 500 < t := by
  cases rk with
  | none =>
    simp only [lungeCore]
    intro hst
    have := hI hst
    omega
  | some k =>
    cases rh with
    | none =>
      simp only [lungeCore]
      intro hst
      have := hI hst
      omega
    | some hp =>
      simp only [lungeCore]
      split
      · next h1 =>
        intro _
        simp only [Bool.and_eq_true, decide_eq_true_eq] at h1
        dsimp only
        have := h1.2
        omega
      · split
        · intro hst
          dsimp only at hst
          exact UpDown.noConfusion hst
        · intro hst
          dsimp only at hst ⊢
          have := hI hst
          omega

/-! ## Decomposition of `detCore` per debounced detector -/

lemma detCore_dec_eyeBlinks (f : FilteredFrame) (ds : DetectorState) (c : Counts) :
    ∃ c', c' .eyeBlinks = c .eyeBlinks ∧
      (detCore f ds c).1.ltBlink =
        (blinkCore f.leftEye f.rightEye f.nose f.now ds.blinkDetected ds.ltBlink c').2.1 ∧
      (detCore f ds c).2 .eyeBlinks =
        (blinkCore f.leftEye f.rightEye f.nose f.now ds.blinkDetected ds.ltBlink c').2.2 .eyeBlinks := by
  refine ⟨(handLiftCore f.leftWrist f.leftShoulder ds.handLifted c).2,
    handLiftCore_counts _ _ _ _ _ (by decide), rfl, ?_⟩
  simp only [detCore]
  rw [lungeCore_counts _ _ _ _ _ _ _ (by decide),
    jumpingJackCore_counts _ _ _ _ _ _ _ _ _ _ (by decide),
    squatCore_counts _ _ _ _ _ _ _ (by decide),
    highJumpCore_counts _ _ _ _ _ _ _ _ (by decide),
    pushUpCore_counts _ _ _ _ _ _ _ (by decide)]

lemma detCore_dec_pushUps (f : FilteredFrame) (ds : DetectorState) (c : Counts) :
    ∃ c', c' .pushUps = c .pushUps ∧
      (detCore f ds c).1.pushUpState =
        (pushUpCore f.rightShoulder f.height f.now ds.pushUpState ds.ltPushUp c').1 ∧
      (detCore f ds c).1.ltPushUp =
        (pushUpCore f.rightShoulder f.height f.now ds.pushUpState ds.ltPushUp c').2.1 ∧
      (detCore f ds c).2 .pushUps =
        (pushUpCore f.rightShoulder f.height f.now ds.pushUpState ds.ltPushUp c').2.2 .pushUps := by
  refine ⟨(blinkCore f.leftEye f.rightEye f.nose f.now ds.blinkDetected ds.ltBlink
      (handLiftCore f.leftWrist f.leftShoulder ds.handLifted c).2).2.2, ?_, rfl, rfl, ?_⟩
  · rw [blinkCore_counts _ _ _ _ _ _ _ _ (by decide),
      handLiftCore_counts _ _ _ _ _ (by decide)]
  · simp only [detCore]
    rw [lungeCore_counts _ _ _ _ _ _ _ (by decide),
      jumpingJackCore_counts _ _ _ _ _ _ _ _ _ _ (by decide),
      squatCore_counts _ _ _ _ _ _ _ (by decide),
      highJumpCore_counts _ _ _ _ _ _ _ _ (by decide)]

lemma detCore_dec_highJumps (f : FilteredFrame) (ds : DetectorState) (c : Counts) :
    ∃ c', c' .highJumps = c .highJumps ∧
      (detCore f ds c).1.ltHighJump =
        (highJumpCore f.leftAnkle f.rightAnkle f.height f.now ds.highJumpState ds.ltHighJump c').2.1 ∧
      (detCore f ds c).2 .highJumps =
        (highJumpCore f.leftAnkle f.rightAnkle f.height f.now ds.highJumpState ds.ltHighJump c').2.2 .highJumps := by
  refine ⟨(pushUpCore f.rightShoulder f.height f.now ds.pushUpState ds.ltPushUp
      (blinkCore f.leftEye f.rightEye f.nose f.now ds.blinkDetected ds.ltBlink
        (handLiftCore f.leftWrist f.leftShoulder ds.handLifted c).2).2.2).2.2, ?_, rfl, ?_⟩
  · rw [pushUpCore_counts _ _ _ _ _ _ _ (by decide),
      blinkCore_counts _ _ _ _ _ _ _ _ (by decide),
      handLiftCore_counts _ _ _ _ _ (by decide)]
  · simp only [detCore]
    rw [lungeCore_counts _ _ _ _ _ _ _ (by decide),
      jumpingJackCore_counts _ _ _ _ _ _ _ _ _ _ (by decide),
      squatCore_counts _ _ _ _ _ _ _ (by decide)]

lemma detCore_dec_squats (f : FilteredFrame) (ds : DetectorState) (c : Counts) :
    ∃ c', c' .squats = c .squats ∧
      (detCore f ds c).1.squatState =
        (squatCore f.leftKnee f.leftHip f.now ds.squatState ds.ltSquat c').1 ∧
      (detCore f ds c).1.ltSquat =
        (squatCore f.leftKnee f.leftHip f.now ds.squatState ds.ltSquat c').2.1 ∧
      (detCore f ds c).2 .squats =
        (squatCore f.leftKnee f.leftHip f.now ds.squatState ds.ltSquat c').2.2 .squats := by
  refine ⟨(highJumpCore f.leftAnkle f.rightAnkle f.height f.now ds.highJumpState ds.ltHighJump
      (pushUpCore f.rightShoulder f.height f.now ds.pushUpState ds.ltPushUp
        (blinkCore f.leftEye f.rightEye f.nose f.now ds.blinkDetected ds.ltBlink
          (handLiftCore f.leftWrist f.leftShoulder ds.handLifted c).2).2.2).2.2).2.2,
    ?_, rfl, rfl, ?_⟩
  · rw [highJumpCore_counts _ _ _ _ _ _ _ _ (by decide),
      pushUpCore_counts _ _ _ _ _ _ _ (by decide),
      blinkCore_counts _ _ _ _ _ _ _ _ (by decide),
      handLiftCore_counts _ _ _ _ _ (by decide)]
  · simp only [detCore]
    rw [lungeCore_counts _ _ _ _ _ _ _ (by decide),
      jumpingJackCore_counts _ _ _ _ _ _ _ _ _ _ (by decide)]

lemma detCore_dec_jumpingJacks (f : FilteredFrame) (ds : DetectorState) (c : Counts) :
    ∃ c', c' .jumpingJacks = c .jumpingJacks ∧
      (detCore f ds c).1.ltJumpingJack =
        (jumpingJackCore f.leftWrist f.rightWrist f.leftAnkle f.rightAnkle f.width f.now
          ds.jumpingJackState ds.ltJumpingJack c').2.1 ∧
      (detCore f ds c).2 .jumpingJacks =
        (jumpingJackCore f.leftWrist f.rightWrist f.leftAnkle f.rightAnkle f.width f.now
          ds.jumpingJackState ds.ltJumpingJack c').2.2 .jumpingJacks := by
  refine ⟨(squatCore f.leftKnee f.leftHip f.now ds.squatState ds.ltSquat
      (highJumpCore f.leftAnkle f.rightAnkle f.height f.now ds.highJumpState ds.ltHighJump
        (pushUpCore f.rightShoulder f.height f.now ds.pushUpState ds.ltPushUp
          (blinkCore f.leftEye f.rightEye f.nose f.now ds.blinkDetected ds.ltBlink
            (handLiftCore f.leftWrist f.leftShoulder ds.handLifted c).2).2.2).2.2).2.2).2.2,
    ?_, rfl, ?_⟩
  · rw [squatCore_counts _ _ _ _ _ _ _ (by decide),
      highJumpCore_counts _ _ _ _ _ _ _ _ (by decide),
      pushUpCore_counts _ _ _ _ _ _ _ (by decide),
      blinkCore_counts _ _ _ _ _ _ _ _ (by decide),
      handLiftCore_counts _ _ _ _ _ (by decide)]
  · simp only [detCore]
    rw [lungeCore_counts _ _ _ _ _ _ _ (by decide)]

lemma detCore_dec_lunges (f : FilteredFrame) (ds : DetectorState) (c : Counts) :
    ∃ c', c' .lunges = c .lunges ∧
      (detCore f ds c).1.lungeState =
        (lungeCore f.rightKnee f.rightHip f.now ds.lungeState ds.ltLunge c').1 ∧
      (detCore f ds c).1.ltLunge =
        (lungeCore f.rightKnee f.rightHip f.now ds.lungeState ds.ltLunge c').2.1 ∧
      (detCore f ds c).2 .lunges =
        (lungeCore f.rightKnee f.rightHip f.now ds.lungeState ds.ltLunge c').2.2 .lunges := by
  refine ⟨(jumpingJackCore f.leftWrist f.rightWrist f.leftAnkle f.rightAnkle f.width f.now
      ds.jumpingJackState ds.ltJumpingJack
      (squatCore f.leftKnee f.leftHip f.now ds.squatState ds.ltSquat
        (highJumpCore f.leftAnkle f.rightAnkle f.height f.now ds.highJumpState ds.ltHighJump
          (pushUpCore f.rightShoulder f.height f.now ds.pushUpState ds.ltPushUp
            (blinkCore f.leftEye f.rightEye f.nose f.now ds.blinkDetected ds.ltBlink
              (handLiftCore f.leftWrist f.leftShoulder ds.handLifted c).2).2.2).2.2).2.2).2.2).2.2,
    ?_, rfl, rfl, rfl⟩
  rw [jumpingJackCore_counts _ _ _ _ _ _ _ _ _ _ (by decide),
    squatCore_counts _ _ _ _ _ _ _ (by decide),
    highJumpCore_counts _ _ _ _ _ _ _ _ (by decide),
    pushUpCore_counts _ _ _ _ _ _ _ (by decide),
    blinkCore_counts _ _ _ _ _ _ _ _ (by decide),
    handLiftCore_counts _ _ _ _ _ (by decide)]

/-- Step dichotomy for every debounced detector: a `detectAndProcess`
step either leaves the detector's count and `lastTimes` entry unchanged,
or emits exactly once, stamping the frame time, more than one debounce
interval after the previous stamp. -/
lemma emitDichotomy (d : Exercise) (hd : d ≠ .handLifts) (f : FilteredFrame)
    (ds : DetectorState) (c : Counts) :
    ((detCore f ds c).2 d = c d ∧ ltOf d (detCore f ds c).1 = ltOf d ds) ∨
    ((detCore f ds c).2 d = c d + 1 ∧ ltOf d (detCore f ds c).1 = f.now ∧
      (debounceInv d ds f.now → debounceOf d < f.now - ltOf d ds)) := by
  cases d with
  | handLifts => exact absurd rfl hd
  | eyeBlinks =>
    obtain ⟨c', hc', hlt, hcnt⟩ := detCore_dec_eyeBlinks f ds c
    simp only [ltOf, debounceOf]
    rcases blinkCore_dich f.leftEye f.rightEye f.nose f.now ds.blinkDetected
        ds.ltBlink c' with ⟨h1, h2⟩ | ⟨h1, h2, h3⟩
    · left; exact ⟨by rw [hcnt, h1, hc'], by rw [hlt, h2]⟩
    · right; exact ⟨by rw [hcnt, h1, hc'], by rw [hlt, h2], fun _ => h3⟩
  | pushUps =>
    obtain ⟨c', hc', hst, hlt, hcnt⟩ := detCore_dec_pushUps f ds c
    simp only [ltOf, debounceOf, debounceInv]
    rcases pushUpCore_dich f.rightShoulder f.height f.now ds.pushUpState
        ds.ltPushUp c' with ⟨h1, h2⟩ | ⟨h1, h2, h3⟩
    · left; exact ⟨by rw [hcnt, h1, hc'], by rw [hlt, h2]⟩
    · right
      refine ⟨by rw [hcnt, h1, hc'], by rw [hlt, h2], fun hInv => ?_⟩
      have := hInv h3
      omega
  | highJumps =>
    obtain ⟨c', hc', hlt, hcnt⟩ := detCore_dec_highJumps f ds c
    simp only [ltOf, debounceOf]
    rcases highJumpCore_dich f.leftAnkle f.rightAnkle f.height f.now
        ds.highJumpState ds.ltHighJump c' with ⟨h1, h2⟩ | ⟨h1, h2, h3⟩
    · left; exact ⟨by rw [hcnt, h1, hc'], by rw [hlt, h2]⟩
    · right; exact ⟨by rw [hcnt, h1, hc'], by rw [hlt, h2], fun _ => h3⟩
  | squats =>
    obtain ⟨c', hc', hst, hlt, hcnt⟩ := detCore_dec_squats f ds c
    simp only [ltOf, debounceOf, debounceInv]
    rcases squatCore_dich f.leftKnee f.leftHip f.now ds.squatState
        ds.ltSquat c' with ⟨h1, h2⟩ | ⟨h1, h2, h3⟩
    · left; exact ⟨by rw [hcnt, h1, hc'], by rw [hlt, h2]⟩
    · right
      refine ⟨by rw [hcnt, h1, hc'], by rw [hlt, h2], fun hInv => ?_⟩
      have := hInv h3
      omega
  | jumpingJacks =>
    obtain ⟨c', hc', hlt, hcnt⟩ := detCore_dec_jumpingJacks f ds c
    simp only [ltOf, debounceOf]
    rcases jumpingJackCore_dich f.leftWrist f.rightWrist f.leftAnkle
        f.rightAnkle f.width f.now ds.jumpingJackState ds.ltJumpingJack c' with
      ⟨h1, h2⟩ | ⟨h1, h2, h3⟩
    · left; exact ⟨by rw [hcnt, h1, hc'], by rw [hlt, h2]⟩
    · right; exact ⟨by rw [hcnt, h1, hc'], by rw [hlt, h2], fun _ => h3⟩
  | lunges =>
    obtain ⟨c', hc', hst, hlt, hcnt⟩ := detCore_dec_lunges f ds c
    simp only [ltOf, debounceOf, debounceInv]
    rcases lungeCore_dich f.rightKnee f.rightHip f.now ds.lungeState
        ds.ltLunge c' with ⟨h1, h2⟩ | ⟨h1, h2, h3⟩
    · left; exact ⟨by rw [hcnt, h1, hc'], by rw [hlt, h2]⟩
    · right
      refine ⟨by rw [hcnt, h1, hc'], by rw [hlt, h2], fun hInv => ?_⟩
      have := hInv h3
      omega

/-- The down-phase debounce invariant is preserved by every step, for
any later time bound. -/
lemma invPres (d : Exercise) (f : FilteredFrame) (ds : DetectorState)
    (c : Counts) (t : ℤ) (hI : debounceInv d ds f.now) (ht : f.now ≤ t) :
    debounceInv d (detCore f ds c).1 t := by
  cases d with
  | handLifts => trivial
  | eyeBlinks => trivial
  | highJumps => trivial
  | jumpingJacks => trivial
  | pushUps =>
    obtain ⟨c', hc', hst, hlt, hcnt⟩ := detCore_dec_pushUps f ds c
    simp only [debounceInv] at *
    intro hdown
    rw [hst] at hdown
    rw [hlt]
    exact pushUpCore_inv _ _ _ _ _ _ hI t ht hdown
  | squats =>
    obtain ⟨c', hc', hst, hlt, hcnt⟩ := detCore_dec_squats f ds c
    simp only [debounceInv] at *
    intro hdown
    rw [hst] at hdown
    rw [hlt]
    exact squatCore_inv _ _ _ _ _ _ hI t ht hdown
  | lunges =>
    obtain ⟨c', hc', hst, hlt, hcnt⟩ := detCore_dec_lunges f ds c
    simp only [debounceInv] at *
    intro hdown
    rw [hst] at hdown
    rw [hlt]
    exact lungeCore_inv _ _ _ _ _ _ hI t ht hdown

lemma debounceInv_init (d : Exercise) (t : ℤ) :
    debounceInv d initDetectorState t := by
  cases d <;> simp [debounceInv, initDetectorState]

lemma emitTimes_cons (d : Exercise) (s : SysState) (f : FilteredFrame)
    (fs : List FilteredFrame) :
    emitTimes d s (f :: fs) =
      if (detectAndProcess f s).localCounts d ≠ s.localCounts d
      then f.now :: emitTimes d (detectAndProcess f s) fs
      else emitTimes d (detectAndProcess f s) fs := rfl

lemma flushTimes_cons (s : SysState) (f : FilteredFrame)
    (fs : List FilteredFrame) :
    flushTimes s (f :: fs) =
      if 800 ≤ f.now - s.lastContextFlush
      then f.now :: flushTimes (detectAndProcess f s) fs
      else flushTimes (detectAndProcess f s) fs := rfl

/-- Chronological induction for the debounce-separation property. -/
lemma emitChainAux (d : Exercise) (hd : d ≠ .handLifts) :
    ∀ (fs : List FilteredFrame) (s : SysState),
      List.Chain' (· ≤ ·) (fs.map FilteredFrame.now) →
      (∀ f, fs.head? = some f → debounceInv d s.det f.now) →
      List.Chain' (fun a b => a + debounceOf d < b) (emitTimes d s fs) ∧
      ∀ t ∈ emitTimes d s fs, ltOf d s.det + debounceOf d < t := by
  intro fs
  induction fs with
  | nil =>
    intro s _ _
    exact ⟨List.chain'_nil, by intro t ht; simp [emitTimes] at ht⟩
  | cons f fs ih =>
    intro s hchain hinv
    have hinvf : debounceInv d s.det f.now := hinv f rfl
    rw [List.map_cons] at hchain
    obtain ⟨hhead, hchain'⟩ := List.chain'_cons'.mp hchain
    have hinv' : ∀ g, fs.head? = some g →
        debounceInv d (detectAndProcess f s).det g.now := by
      intro g hg
      rw [detectAndProcess_det]
      refine invPres d f s.det s.localCounts g.now hinvf ?_
      apply hhead
      rw [List.head?_map, hg]
      rfl
    obtain ⟨ihc, ihb⟩ := ih (detectAndProcess f s) hchain' hinv'
    rcases emitDichotomy d hd f s.det s.localCounts with
      ⟨hsame, hltsame⟩ | ⟨hbump, hltnew, hguard⟩
    · have hne : ¬((detectAndProcess f s).localCounts d ≠ s.localCounts d) := by
        rw [detectAndProcess_localCounts, hsame]
        exact fun hcon => hcon rfl
      rw [emitTimes_cons, if_neg hne]
      have hlteq : ltOf d (detectAndProcess f s).det = ltOf d s.det := by
        rw [detectAndProcess_det]
        exact hltsame
      exact ⟨ihc, fun t ht => by have := ihb t ht; rw [hlteq] at this; exact this⟩
    · have hne : (detectAndProcess f s).localCounts d ≠ s.localCounts d := by
        rw [detectAndProcess_localCounts, hbump]
        omega
      rw [emitTimes_cons, if_pos hne]
      have hlt' : ltOf d (detectAndProcess f s).det = f.now := by
        rw [detectAndProcess_det]
        exact hltnew
      have hguard' : debounceOf d < f.now - ltOf d s.det := hguard hinvf
      have hD := debounceOf_nonneg d
      constructor
      · rw [List.chain'_cons']
        refine ⟨fun b hb => ?_, ihc⟩
        have hbmem : b ∈ emitTimes d (detectAndProcess f s) fs :=
          List.mem_of_mem_head? hb
        have := ihb b hbmem
        rw [hlt'] at this
        exact this
      · intro t htmem
        rcases List.mem_cons.mp htmem with rfl | hmem
        · omega
        · have := ihb t hmem
          rw [hlt'] at this
          omega

/-! ## Flush timing and published-store lemmas -/

lemma flushChainAux : ∀ (fs : List FilteredFrame) (s : SysState),
    List.Chain' (fun a b => a + 800 ≤ b) (flushTimes s fs) ∧
    ∀ t ∈ flushTimes s fs, s.lastContextFlush + 800 ≤ t := by
  intro fs
  induction fs with
  | nil =>
    intro s
    exact ⟨List.chain'_nil, by intro t ht; simp [flushTimes] at ht⟩
  | cons f fs ih =>
    intro s
    obtain ⟨ihc, ihb⟩ := ih (detectAndProcess f s)
    by_cases hfl : 800 ≤ f.now - s.lastContextFlush
    · rw [flushTimes_cons, if_pos hfl]
      have hlast : (detectAndProcess f s).lastContextFlush = f.now := by
        rw [detectAndProcess_lastFlush, if_neg (by omega)]
      constructor
      · rw [List.chain'_cons']
        refine ⟨fun b hb => ?_, ihc⟩
        have := ihb b (List.mem_of_mem_head? hb)
        rw [hlast] at this
        exact this
      · intro t ht
        rcases List.mem_cons.mp ht with rfl | hm
        · omega
        · have := ihb t hm
          rw [hlast] at this
          omega
    · rw [flushTimes_cons, if_neg hfl]
      have hlast : (detectAndProcess f s).lastContextFlush = s.lastContextFlush := by
        rw [detectAndProcess_lastFlush, if_pos (by omega)]
      refine ⟨ihc, fun t ht => ?_⟩
      have := ihb t ht
      rw [hlast] at this
      exact this

lemma storeHistAux : ∀ (fs : List FilteredFrame) (s : SysState) (k : Exercise),
    (∃ i ≤ fs.length, (processFrames s fs).contextCounts k =
      (processFrames s (fs.take i)).localCounts k) ∨
    (processFrames s fs).contextCounts k = s.contextCounts k := by
  intro fs
  induction fs with
  | nil => intro s k; right; rfl
  | cons f fs ih =>
    intro s k
    rcases ih (detectAndProcess f s) k with ⟨i, hi, h⟩ | h
    · left
      refine ⟨i + 1, by simp only [List.length_cons]; omega, ?_⟩
      rw [processFrames_cons, List.take_succ_cons, processFrames_cons]
      exact h
    · by_cases hfl : f.now - s.lastContextFlush < 800
      · right
        rw [processFrames_cons, h, detectAndProcess_contextCounts, if_pos hfl]
      · left
        refine ⟨1, by simp, ?_⟩
        rw [processFrames_cons, h, detectAndProcess_contextCounts, if_neg hfl]
        show (detCore f s.det s.localCounts).2 k =
          (processFrames s [f]).localCounts k
        rw [show processFrames s [f] = detectAndProcess f s from rfl,
          detectAndProcess_localCounts]

lemma storeLeAux : ∀ (fs : List FilteredFrame) (s : SysState),
    (∀ k, s.contextCounts k ≤ s.localCounts k) →
    ∀ k, (processFrames s fs).contextCounts k ≤ (processFrames s fs).localCounts k := by
  intro fs
  induction fs with
  | nil => intro s h k; exact h k
  | cons f fs ih =>
    intro s h k
    rw [processFrames_cons]
    refine ih (detectAndProcess f s) ?_ k
    intro k'
    rw [detectAndProcess_localCounts, detectAndProcess_contextCounts]
    split
    · exact le_trans (h k') (detCore_counts_le f s.det s.localCounts k')
    · exact le_refl _

/-! ## Frames with no valid keypoints -/

lemma detCore_id_of_none (f : FilteredFrame)
    (h1 : f.leftWrist = none) (h2 : f.rightWrist = none)
    (h3 : f.leftShoulder = none) (h4 : f.rightShoulder = none)
    (h5 : f.leftEye = none) (h6 : f.rightEye = none) (h7 : f.nose = none)
    (h8 : f.leftAnkle = none) (h9 : f.rightAnkle = none)
    (h10 : f.leftKnee = none) (h11 : f.leftHip = none)
    (h12 : f.rightKnee = none) (h13 : f.rightHip = none)
    (d : DetectorState) (c : Counts) : detCore f d c = (d, c) := by
  simp [detCore, h1, h2, h3, h4, h5, h6, h7, h8, h9, h10, h11, h12, h13,
    handLiftCore, blinkCore, pushUpCore, highJumpCore, squatCore,
    jumpingJackCore, lungeCore]

lemma invalidRunAux : ∀ (fs : List PoseFrame) (s : SysState),
    (∀ f ∈ fs, ∀ idx : Fin 17,
      getKeypointByName f.kps idx f.width f.height = none) →
    (∀ k, s.localCounts k = s.contextCounts k) →
    (processFramesRaw s fs).det = s.det ∧
    (∀ k, (processFramesRaw s fs).localCounts k = s.localCounts k) ∧
    (∀ k, (processFramesRaw s fs).contextCounts k = s.contextCounts k) := by
  intro fs
  induction fs with
  | nil => intro s _ _; exact ⟨rfl, fun _ => rfl, fun _ => rfl⟩
  | cons f fs ih =>
    intro s hall heq
    have hf := hall f (List.mem_cons_self f fs)
    have hdc : detCore (filterFrame f) s.det s.localCounts =
        (s.det, s.localCounts) :=
      detCore_id_of_none _ (hf 9) (hf 10) (hf 5) (hf 6) (hf 1) (hf 2) (hf 0)
        (hf 15) (hf 16) (hf 13) (hf 11) (hf 14) (hf 12) _ _
    have hstep : detectAndProcessRaw f s = detectAndProcess (filterFrame f) s := rfl
    have hdet : (detectAndProcessRaw f s).det = s.det := by
      rw [hstep, detectAndProcess_det, hdc]
    have hloc : ∀ k, (detectAndProcessRaw f s).localCounts k = s.localCounts k := by
      intro k
      rw [hstep, detectAndProcess_localCounts, hdc]
    have hctx : ∀ k, (detectAndProcessRaw f s).contextCounts k = s.contextCounts k := by
      intro k
      rw [hstep, detectAndProcess_contextCounts]
      split
      · rfl
      · rw [hdc]
        exact heq k
    have heq' : ∀ k, (detectAndProcessRaw f s).localCounts k =
        (detectAndProcessRaw f s).contextCounts k := by
      intro k
      rw [hloc k, hctx k]
      exact heq k
    obtain ⟨ih1, ih2, ih3⟩ := ih (detectAndProcessRaw f s)
      (fun g hg => hall g (List.mem_cons_of_mem f hg)) heq'
    refine ⟨?_, fun k => ?_, fun k => ?_⟩
    · rw [show processFramesRaw s (f :: fs) =
        processFramesRaw (detectAndProcessRaw f s) fs from rfl, ih1, hdet]
    · rw [show processFramesRaw s (f :: fs) =
        processFramesRaw (detectAndProcessRaw f s) fs from rfl, ih2 k, hloc k]
    · rw [show processFramesRaw s (f :: fs) =
        processFramesRaw (detectAndProcessRaw f s) fs from rfl, ih3 k, hctx k]

/-! ## Soundness of the square-root-free encoding of `Math.hypot` comparisons

`sqrtSumLt`/`sqrtSumGt` decide `√a + √b < c` and `√a + √b > c` over the
rationals by squaring twice; these lemmas verify the encodings against
`Real.sqrt`, so the blink detector's embedded conditions mean exactly the
source's `(Math.hypot d₁ + Math.hypot d₂) / 2 < 80` and `> 95`. -/

lemma jhypot_fin (dx dy : ℚ) :
    jhypot (.fin dx) (.fin dy) = .fin (dx ^ 2 + dy ^ 2) := rfl

lemma sqrtSumLt_iff_real (a b c : ℚ) (ha : 0 ≤ a) (hb : 0 ≤ b) :
    sqrtSumLt a b c = true ↔
      Real.sqrt (a : ℝ) + Real.sqrt (b : ℝ) < (c : ℝ) := by
  have ha' : (0:ℝ) ≤ (a:ℝ) := by exact_mod_cast ha
  have hb' : (0:ℝ) ≤ (b:ℝ) := by exact_mod_cast hb
  set u := Real.sqrt (a:ℝ) with hu
  set v := Real.sqrt (b:ℝ) with hv
  have hu0 : 0 ≤ u := Real.sqrt_nonneg _
  have hv0 : 0 ≤ v := Real.sqrt_nonneg _
  have hu2 : u ^ 2 = (a:ℝ) := Real.sq_sqrt ha'
  have hv2 : v ^ 2 = (b:ℝ) := Real.sq_sqrt hb'
  simp only [sqrtSumLt, Bool.and_eq_true, decide_eq_true_eq]
  constructor
  · rintro ⟨hc, hd, hq⟩
    have hc' : (0:ℝ) < (c:ℝ) := by exact_mod_cast hc
    have hd' : (0:ℝ) < (c:ℝ)^2 - a - b := by
      have e : ((c^2 - a - b : ℚ) : ℝ) = (c:ℝ)^2 - a - b := by push_cast; ring
      rw [← e]
      exact_mod_cast hd
    have hq' : (4:ℝ) * a * b < ((c:ℝ)^2 - a - b)^2 := by
      have e1 : ((4 * a * b : ℚ) : ℝ) = (4:ℝ) * a * b := by push_cast; ring
      have e2 : (((c^2 - a - b)^2 : ℚ) : ℝ) = ((c:ℝ)^2 - a - b)^2 := by
        push_cast; ring
      rw [← e1, ← e2]
      exact_mod_cast hq
    rw [← hu2, ← hv2] at hd' hq'
    by_contra hcon
    push_neg at hcon
    have h1 : (c:ℝ)^2 ≤ (u+v)^2 := by nlinarith
    have h2 : (c:ℝ)^2 - u^2 - v^2 ≤ 2*u*v := by nlinarith
    have h3 := mul_self_le_mul_self (le_of_lt hd') h2
    nlinarith [h3]
  · intro hlt
    have hc' : (0:ℝ) < (c:ℝ) := lt_of_le_of_lt (by positivity) hlt
    have huv : (u + v)^2 < (c:ℝ)^2 := by nlinarith
    have h2uv : 2*u*v < (c:ℝ)^2 - u^2 - v^2 := by nlinarith
    have huv0 : 0 ≤ 2*u*v := by positivity
    refine ⟨by exact_mod_cast hc', ?_, ?_⟩
    · have h0 : (0:ℝ) < (c:ℝ)^2 - a - b := by rw [← hu2, ← hv2]; linarith
      have e : ((c^2 - a - b : ℚ) : ℝ) = (c:ℝ)^2 - a - b := by push_cast; ring
      rw [← e] at h0
      exact_mod_cast h0
    · have h0 : (4:ℝ) * a * b < ((c:ℝ)^2 - a - b)^2 := by
        rw [← hu2, ← hv2]
        nlinarith
      have e1 : ((4 * a * b : ℚ) : ℝ) = (4:ℝ) * a * b := by push_cast; ring
      have e2 : (((c^2 - a - b)^2 : ℚ) : ℝ) = ((c:ℝ)^2 - a - b)^2 := by
        push_cast; ring
      rw [← e1, ← e2] at h0
      exact_mod_cast h0

lemma sqrtSumGt_iff_real (a b c : ℚ) (ha : 0 ≤ a) (hb : 0 ≤ b) :
    sqrtSumGt a b c = true ↔
      (c : ℝ) < Real.sqrt (a : ℝ) + Real.sqrt (b : ℝ) := by
  have ha' : (0:ℝ) ≤ (a:ℝ) := by exact_mod_cast ha
  have hb' : (0:ℝ) ≤ (b:ℝ) := by exact_mod_cast hb
  set u := Real.sqrt (a:ℝ) with hu
  set v := Real.sqrt (b:ℝ) with hv
  have hu0 : 0 ≤ u := Real.sqrt_nonneg _
  have hv0 : 0 ≤ v := Real.sqrt_nonneg _
  have hu2 : u ^ 2 = (a:ℝ) := Real.sq_sqrt ha'
  have hv2 : v ^ 2 = (b:ℝ) := Real.sq_sqrt hb'
  have hdc : ((c^2 - a - b : ℚ) : ℝ) = (c:ℝ)^2 - u^2 - v^2 := by
    rw [hu2, hv2]; push_cast; ring
  have habc : ((4 * a * b : ℚ) : ℝ) = 4 * u^2 * v^2 := by
    rw [hu2, hv2]; push_cast; ring
  simp only [sqrtSumGt, Bool.or_eq_true, decide_eq_true_eq]
  constructor
  · rintro (hc | hd | hq)
    · have h0 : (c:ℝ) < 0 := by exact_mod_cast hc
      have h1 : (0:ℝ) ≤ u + v := by positivity
      linarith
    · have hd' : (c:ℝ)^2 - u^2 - v^2 < 0 := by rw [← hdc]; exact_mod_cast hd
      rcases lt_or_le (c:ℝ) 0 with h0 | h0
      · have h1 : (0:ℝ) ≤ u + v := by positivity
        linarith
      · by_contra hcon
        push_neg at hcon
        nlinarith [mul_nonneg hu0 hv0]
    · have hq' : ((c:ℝ)^2 - u^2 - v^2)^2 < 4 * u^2 * v^2 := by
        have e1 : (((c^2 - a - b)^2 : ℚ) : ℝ) = ((c:ℝ)^2 - u^2 - v^2)^2 := by
          rw [← hdc]; push_cast; ring
        rw [← e1, ← habc]
        exact_mod_cast hq
      rcases lt_or_le (c:ℝ) 0 with h0 | h0
      · have h1 : (0:ℝ) ≤ u + v := by positivity
        linarith
      · by_contra hcon
        push_neg at hcon
        have huv : 0 ≤ 2*u*v := by positivity
        have h1 : (u+v)^2 ≤ (c:ℝ)^2 := by nlinarith
        have h2 : (c:ℝ)^2 - u^2 - v^2 ≥ 2*u*v := by nlinarith
        have h3 := mul_self_le_mul_self huv h2
        nlinarith [h3]
  · intro hlt
    by_contra hcon
    push_neg at hcon
    obtain ⟨hc, hd, hq⟩ := hcon
    have hc' : (0:ℝ) ≤ (c:ℝ) := by exact_mod_cast hc
    have hd' : (0:ℝ) ≤ (c:ℝ)^2 - u^2 - v^2 := by rw [← hdc]; exact_mod_cast hd
    have hq' : 4 * u^2 * v^2 ≤ ((c:ℝ)^2 - u^2 - v^2)^2 := by
      have e1 : (((c^2 - a - b)^2 : ℚ) : ℝ) = ((c:ℝ)^2 - u^2 - v^2)^2 := by
        rw [← hdc]; push_cast; ring
      rw [← e1, ← habc]
      exact_mod_cast hq
    have huv : 0 ≤ 2*u*v := by positivity
    have h2uv : 2*u*v ≤ (c:ℝ)^2 - u^2 - v^2 := by
      nlinarith [sq_nonneg (2*u*v - ((c:ℝ)^2 - u^2 - v^2))]
    nlinarith

lemma earAvgLt_iff_real (s1 s2 c : ℚ) (h1 : 0 ≤ s1) (h2 : 0 ≤ s2) :
    earAvgLt (.fin s1) (.fin s2) c = true ↔
      (Real.sqrt (s1:ℝ) + Real.sqrt (s2:ℝ)) / 2 < (c:ℝ) := by
  show sqrtSumLt s1 s2 (2 * c) = true ↔ _
  rw [sqrtSumLt_iff_real _ _ _ h1 h2, div_lt_iff (by norm_num : (0:ℝ) < 2)]
  push_cast
  constructor <;> intro <;> linarith

lemma earAvgGt_iff_real (s1 s2 c : ℚ) (h1 : 0 ≤ s1) (h2 : 0 ≤ s2) :
    earAvgGt (.fin s1) (.fin s2) c = true ↔
      (c:ℝ) < (Real.sqrt (s1:ℝ) + Real.sqrt (s2:ℝ)) / 2 := by
  show sqrtSumGt s1 s2 (2 * c) = true ↔ _
  rw [sqrtSumGt_iff_real _ _ _ h1 h2, lt_div_iff (by norm_num : (0:ℝ) < 2)]
  push_cast
  constructor <;> intro <;> linarith

/-! ## The claims -/

/-- C1 (counterexample): the claim as stated is false. A frame sequence
realizing exactly one rest→active→rest jumping-jack cycle (per the
jumping-jack table row, trigger keypoints only, spaced beyond the 350 ms
debounce) nevertheless increments the high-jump count as well, because
the jumping-jack trigger keypoints include the two ankles, which the
high-jump detector also reads: with the mean ankle y at 50 px on a
480 px frame (< 0.24·480), the high-jump detector emits on the same
frames, so the counts of "the other six exercises" do not all stay
unchanged. -/
theorem C1_jj_cycle_bumps_high_jump :
    CycleSeq .jumpingJacks [jjOpenFrame, jjCloseFrame] ∧
    (processFrames (initState 0) [jjOpenFrame, jjCloseFrame]).localCounts
      .jumpingJacks = 1 ∧
    (processFrames (initState 0) [jjOpenFrame, jjCloseFrame]).localCounts
      .highJumps = 1 := by
  refine ⟨⟨[], [jjOpenFrame], [jjCloseFrame], rfl, by simp, by simp, ?_,
    by simp, ?_, ?_, ?_⟩, ?_, ?_⟩
  · norm_num [goodFrame, triggerFree, jjOpenFrame, jjCloseFrame, emptyFF]
  · norm_num [activeCond, jjActive, jjOpenFrame, emptyFF, mkKp, jgt, jlt,
      jabs, jsub]
  · norm_num [restCond, jjRest, jjCloseFrame, emptyFF, mkKp, jgt, jlt, jabs,
      jsub]
  · norm_num [Spaced, debounceOf, jjOpenFrame, jjCloseFrame, emptyFF]
  · norm_num [jjOpenFrame, jjCloseFrame, emptyFF, mkKp, processFrames, detectAndProcess, detCore, handLiftCore, blinkCore,
    pushUpCore, highJumpCore, squatCore, jumpingJackCore, lungeCore,
    flushCountsToContext, initState, initDetectorState, zeroCounts,
    bufferIncrement, jlt, jgt, jge, jaddc, jsub, jabs, javg, jadd, jhalf] <;> decide
  · norm_num [jjOpenFrame, jjCloseFrame, emptyFF, mkKp, processFrames, detectAndProcess, detCore, handLiftCore, blinkCore,
    pushUpCore, highJumpCore, squatCore, jumpingJackCore, lungeCore,
    flushCountsToContext, initState, initDetectorState, zeroCounts,
    bufferIncrement, jlt, jgt, jge, jaddc, jsub, jabs, javg, jadd, jhalf] <;> decide

/-- C1 (amended): for every sequence of filtered frames that realizes
exactly one rest→active→rest cycle matching one detector's table row
(only that detector's trigger keypoints present, timestamps spaced
beyond its debounce interval, and — for the jumping jack, whose trigger
keypoints include the ankles read by the high-jump detector — the mean
ankle height staying out of the high-jump emit region), processing the
sequence increments exactly that exercise's count by exactly 1 and
leaves the counts of the other six exercises unchanged. -/
theorem C1_single_cycle_amended (d : Exercise) (fs : List FilteredFrame)
    (t0 : ℤ) (h : CycleSeqSafe d fs) :
    (processFrames (initState t0) fs).localCounts d = 1 ∧
    ∀ k, k ≠ d → (processFrames (initState t0) fs).localCounts k = 0 := by
  have hp := (processFrames_detFold fs (initState t0)).2
  have hc := cycleCounts d fs h
  constructor
  · rw [hp]
    show (detFold (initDetectorState, zeroCounts) fs).2 d = 1
    rw [hc]
    simp [bufferIncrement, zeroCounts]
  · intro k hk
    rw [hp]
    show (detFold (initDetectorState, zeroCounts) fs).2 k = 0
    rw [hc]
    simp [bufferIncrement, hk, zeroCounts]

/-- Witness for C1 (amended): a concrete hand-lift cycle counts exactly
one hand lift and nothing else. -/
theorem C1_single_cycle_amended_witness :
    CycleSeqSafe .handLifts [hlUpFrame, hlDownFrame] ∧
    (processFrames (initState 0) [hlUpFrame, hlDownFrame]).localCounts
      .handLifts = 1 ∧
    ∀ k, k ≠ Exercise.handLifts →
      (processFrames (initState 0) [hlUpFrame, hlDownFrame]).localCounts k = 0 := by
  have hcy : CycleSeqSafe .handLifts [hlUpFrame, hlDownFrame] := by
    refine ⟨⟨[], [hlUpFrame], [hlDownFrame], rfl, by simp, by simp, ?_,
      by simp, ?_, ?_, ?_⟩, fun f _ => trivial⟩
    · norm_num [goodFrame, triggerFree, hlUpFrame, hlDownFrame, emptyFF]
    · norm_num [activeCond, hlActive, hlUpFrame, emptyFF, mkKp, jlt, jaddc]
    · norm_num [restCond, hlRest, hlDownFrame, emptyFF, mkKp, jge, jlt, jaddc]
    · norm_num [Spaced, debounceOf, hlUpFrame, hlDownFrame, emptyFF]
  exact ⟨hcy, C1_single_cycle_amended .handLifts _ 0 hcy⟩

/-- C2: for every detector with a debounce interval, over any frame
sequence with nondecreasing timestamps, consecutive emitted repetition
events of that detector are separated by more than its debounce
interval — so oscillations within one debounce window add at most one
count per interval. -/
theorem C2_debounce_separation (d : Exercise) (hd : d ≠ .handLifts) (t0 : ℤ)
    (fs : List FilteredFrame)
    (hchain : List.Chain' (· ≤ ·) (fs.map FilteredFrame.now)) :
    List.Chain' (fun a b => a + debounceOf d < b)
      (emitTimes d (initState t0) fs) :=
  (emitChainAux d hd fs (initState t0) hchain
    (fun f _ => debounceInv_init d f.now)).1

/-- Witness for C2: a concrete push-up run whose two emits (at 600 and
1200 ms; the down-transition attempt at 700 ms is debounced away) are
more than 400 ms apart. -/
theorem C2_debounce_separation_witness :
    Exercise.pushUps ≠ Exercise.handLifts ∧
    emitTimes .pushUps (initState 0) [puLowFrame 500, puHighFrame 600,
      puLowFrame 700, puLowFrame 1100, puHighFrame 1200] = [600, 1200] ∧
    List.Chain' (fun a b => a + debounceOf .pushUps < b)
      (emitTimes .pushUps (initState 0) [puLowFrame 500, puHighFrame 600,
        puLowFrame 700, puLowFrame 1100, puHighFrame 1200]) :=
  ⟨by decide,
    by norm_num [emitTimes_cons, puLowFrame, puHighFrame, emptyFF, mkKp,
      emitTimes, processFrames, detectAndProcess, detCore, handLiftCore, blinkCore,
    pushUpCore, highJumpCore, squatCore, jumpingJackCore, lungeCore,
    flushCountsToContext, initState, initDetectorState, zeroCounts,
    bufferIncrement, jlt, jgt, jge, jaddc, jsub, jabs, javg, jadd, jhalf] <;> decide,
    C2_debounce_separation .pushUps (by decide) 0 _
      (by norm_num [puLowFrame, puHighFrame, emptyFF])⟩

/-- C3: any two consecutive flushes to the published count store are
separated by at least 800 ms. (The code is in fact stricter than the
claim's exception: `lastContextFlush` starts at the mount time, so even
the first flush waits 800 ms from initialization.) -/
theorem C3_flush_separation (t0 : ℤ) (fs : List FilteredFrame) :
    List.Chain' (fun a b => a + 800 ≤ b) (flushTimes (initState t0) fs) :=
  (flushChainAux fs (initState t0)).1

/-- C4: a flush attempt at least 800 ms after the last flush propagates
the local buffer to the published store for every exercise in that one
call (differing entries all flushed together) and leaves the buffer
unchanged; an earlier attempt is a complete no-op. -/
theorem C4_flush_semantics (s : SysState) (now : ℤ) :
    (800 ≤ now - s.lastContextFlush →
      (∀ k, (flushCountsToContext s now).contextCounts k = s.localCounts k) ∧
      (flushCountsToContext s now).localCounts = s.localCounts ∧
      (flushCountsToContext s now).lastContextFlush = now) ∧
    (now - s.lastContextFlush < 800 → flushCountsToContext s now = s) := by
  constructor
  · intro h
    refine ⟨fun k => ?_, flush_localCounts s now, ?_⟩
    · rw [flush_contextCounts, if_neg (by omega)]
    · rw [flush_lastFlush, if_neg (by omega)]
  · intro h
    unfold flushCountsToContext
    rw [if_pos h]

/-- Witness for C4: with three buffered push-ups, a flush at 800 ms
publishes them; a flush at 100 ms changes nothing. -/
theorem C4_flush_semantics_witness :
    (flushCountsToContext sampleState 800).contextCounts .pushUps = 3 ∧
    flushCountsToContext sampleState 100 = sampleState := by
  constructor
  · have h := ((C4_flush_semantics sampleState 800).1 (by decide)).1 Exercise.pushUps
    rw [h]
    rfl
  · exact (C4_flush_semantics sampleState 100).2 (by decide)

/-- C5: at every reachable state, each published count is a value the
local buffer held after some earlier-or-equal prefix of the run — the
store never invents a count. -/
theorem C5_store_history (t0 : ℤ) (fs : List FilteredFrame) (k : Exercise) :
    ∃ i ≤ fs.length, (processFrames (initState t0) fs).contextCounts k =
      (processFrames (initState t0) (fs.take i)).localCounts k := by
  rcases storeHistAux fs (initState t0) k with ⟨i, hi, h⟩ | h
  · exact ⟨i, hi, h⟩
  · exact ⟨0, Nat.zero_le _, by rw [h]; rfl⟩

/-- C6: a sequence of frames in which no keypoint passes validation
leaves every detector state and every count (buffer and store) at its
initial value. -/
theorem C6_invalid_frames_no_effect (t0 : ℤ) (fs : List PoseFrame)
    (hall : ∀ f ∈ fs, ∀ idx : Fin 17,
      getKeypointByName f.kps idx f.width f.height = none) :
    (processFramesRaw (initState t0) fs).det = initDetectorState ∧
    ∀ k, (processFramesRaw (initState t0) fs).localCounts k = 0 ∧
      (processFramesRaw (initState t0) fs).contextCounts k = 0 := by
  obtain ⟨h1, h2, h3⟩ := invalidRunAux fs (initState t0) hall (fun _ => rfl)
  exact ⟨h1, fun k => ⟨h2 k, h3 k⟩⟩

/-- Witness for C6: a frame with no keypoints at all changes nothing. -/
theorem C6_invalid_frames_no_effect_witness :
    (∀ f ∈ [emptyPoseFrame], ∀ idx : Fin 17,
      getKeypointByName f.kps idx f.width f.height = none) ∧
    ((processFramesRaw (initState 0) [emptyPoseFrame]).det = initDetectorState ∧
    ∀ k, (processFramesRaw (initState 0) [emptyPoseFrame]).localCounts k = 0 ∧
      (processFramesRaw (initState 0) [emptyPoseFrame]).contextCounts k = 0) :=
  ⟨by decide, C6_invalid_frames_no_effect 0 [emptyPoseFrame] (by decide)⟩

/-- C7 (counterexample): the claim says the filter returns "absent"
exactly when a disqualifying condition holds, one of which is "x or y is
not a finite number after rescale". The code checks `isNaN`, not
finiteness: a keypoint with `x = Infinity` and a good score rescales to
an infinite (hence non-finite) x, yet `getKeypointByName` returns it
instead of "absent". -/
theorem C7_filter_not_finite_counterexample :
    jsFinite (jscale infKp.x 640) = false ∧
    getKeypointByName kpsInf 9 640 480 =
      some { x := .inf, y := .fin 240, score := some 0.9 } := by
  constructor
  · norm_num [jsFinite, jscale, infKp]
  · norm_num [getKeypointByName, kpsInf, infKp, jscale, jIsNaN]

/-- C7 (amended): the keypoint filter returns "absent" exactly when the
keypoint is missing, its confidence score is missing or below 0.2, or
its x or y coordinate is NaN after rescale (infinite coordinates are not
rejected); otherwise it returns the keypoint with x multiplied by the
frame width and y by the frame height. -/
theorem C7_filter_spec (kps : Fin 17 → Option RawKp) (idx : Fin 17) (w h : ℚ) :
    (kps idx = none → getKeypointByName kps idx w h = none) ∧
    ∀ kp, kps idx = some kp →
      ((getKeypointByName kps idx w h = none ↔
        kp.score = none ∨ (∃ sc, kp.score = some sc ∧ sc < 0.2) ∨
        jIsNaN (jscale kp.x w) = true ∨ jIsNaN (jscale kp.y h) = true) ∧
      ∀ sc, kp.score = some sc → ¬(sc < 0.2) →
        jIsNaN (jscale kp.x w) = false → jIsNaN (jscale kp.y h) = false →
        getKeypointByName kps idx w h =
          some { x := jscale kp.x w, y := jscale kp.y h, score := some sc }) := by
  constructor
  · intro h0
    simp [getKeypointByName, h0]
  · intro kp hkp
    constructor
    · unfold getKeypointByName
      rw [hkp]
      cases hsc : kp.score with
      | none => simp [hsc]
      | some sc =>
        simp only [hsc]
        by_cases hlow : sc < 0.2
        · simp [hsc, hlow]
        · by_cases hnx : jIsNaN (jscale kp.x w) = true
          · simp [hsc, hlow, hnx]
          · by_cases hny : jIsNaN (jscale kp.y h) = true
            · simp [hsc, hlow, hnx, hny]
            · simp [hsc, hlow, hnx, hny]
    · intro sc hsc hlow hnx hny
      unfold getKeypointByName
      rw [hkp]
      dsimp only
      rw [hsc]
      simp [hlow, hnx, hny]

/-- Witness for C7: a fully valid keypoint comes back rescaled by the
frame dimensions. -/
theorem C7_filter_spec_witness :
    getKeypointByName (fun _ => some (mkKp 100 100)) 0 640 480 =
      some { x := jscale (JsNum.fin 100) 640, y := jscale (JsNum.fin 100) 480,
             score := some 1 } :=
  ((C7_filter_spec (fun _ => some (mkKp 100 100)) 0 640 480).2
    (mkKp 100 100) rfl).2 1 rfl (by norm_num) rfl rfl

/-- C8: the push-up block, on a valid right shoulder: from "up" it moves
silently to "down" when the shoulder drops below 0.45·frameHeight, but
only more than 400 ms after the last accepted push-up (otherwise the
frame is a no-op); from "down" it emits exactly one repetition and
returns to "up" when the shoulder rises above 0.25·frameHeight. -/
theorem C8_pushup_detector (kp : RawKp) (h : ℚ) (now : ℤ) (st : UpDown)
    (lt : ℤ) (c : Counts) :
    (st = .up → jgt kp.y (.fin (h * 0.45)) = true → 400 < now - lt →
      pushUpCore (some kp) h now st lt c = (.down, lt, c)) ∧
    (st = .up → ¬(400 < now - lt) →
      pushUpCore (some kp) h now st lt c = (.up, lt, c)) ∧
    (st = .down → jlt kp.y (.fin (h * 0.25)) = true →
      pushUpCore (some kp) h now st lt c =
        (.up, now, bufferIncrement c .pushUps) ∧
      bufferIncrement c .pushUps .pushUps = c .pushUps + 1) := by
  refine ⟨?_, ?_, ?_⟩
  · rintro rfl hy ht
    simp [pushUpCore, hy, ht]
  · rintro rfl ht
    simp [pushUpCore, ht]
  · rintro rfl hy
    exact ⟨by simp [pushUpCore, hy], bufferIncrement_self c .pushUps⟩

/-- Witness for C8: concrete down-transition and emit steps on a 480 px
frame. -/
theorem C8_pushup_detector_witness :
    pushUpCore (some (mkKp 320 300)) 480 500 .up 0 zeroCounts =
      (.down, 0, zeroCounts) ∧
    pushUpCore (some (mkKp 320 100)) 480 600 .down 0 zeroCounts =
      (.up, 600, bufferIncrement zeroCounts .pushUps) := by
  constructor
  · exact (C8_pushup_detector (mkKp 320 300) 480 500 .up 0 zeroCounts).1 rfl
      (by norm_num [jgt, jlt, mkKp]) (by decide)
  · exact ((C8_pushup_detector (mkKp 320 100) 480 600 .down 0 zeroCounts).2.2
      rfl (by norm_num [jlt, mkKp])).1

/-- C9: the reset operation (modelled from the spec; the provided
sources contain no reset, only its external callers could) zeroes every
detector state and both count tables; replaying any single exercise
cycle afterwards counts that exercise from 0 to exactly 1, not from a
stale value. -/
theorem C9_reset_replay (s : SysState) :
    (resetWorkout s).det = initDetectorState ∧
    (∀ k, (resetWorkout s).localCounts k = 0 ∧
      (resetWorkout s).contextCounts k = 0) ∧
    ∀ d fs, CycleSeqSafe d fs →
      (processFrames (resetWorkout s) fs).localCounts d = 1 ∧
      ∀ k, k ≠ d → (processFrames (resetWorkout s) fs).localCounts k = 0 := by
  refine ⟨rfl, fun k => ⟨rfl, rfl⟩, ?_⟩
  intro d fs h
  have hp := (processFrames_detFold fs (resetWorkout s)).2
  have hc := cycleCounts d fs h
  constructor
  · rw [hp]
    show (detFold (initDetectorState, zeroCounts) fs).2 d = 1
    rw [hc]
    simp [bufferIncrement, zeroCounts]
  · intro k hk
    rw [hp]
    show (detFold (initDetectorState, zeroCounts) fs).2 k = 0
    rw [hc]
    simp [bufferIncrement, hk, zeroCounts]

/-- Witness for C9: after resetting a mid-session state holding three
buffered push-ups, a squat cycle counts one squat and everything else is
0 (including the stale push-ups). -/
theorem C9_reset_replay_witness :
    CycleSeqSafe .squats [sqDownFrame, sqUpFrame] ∧
    (processFrames (resetWorkout sampleState)
      [sqDownFrame, sqUpFrame]).localCounts .squats = 1 ∧
    ∀ k, k ≠ Exercise.squats →
      (processFrames (resetWorkout sampleState)
        [sqDownFrame, sqUpFrame]).localCounts k = 0 := by
  have hcy : CycleSeqSafe .squats [sqDownFrame, sqUpFrame] := by
    refine ⟨⟨[], [sqDownFrame], [sqUpFrame], rfl, by simp, by simp, ?_,
      by simp, ?_, ?_, ?_⟩, fun f _ => trivial⟩
    · norm_num [goodFrame, triggerFree, sqDownFrame, sqUpFrame, emptyFF]
    · norm_num [activeCond, sqActive, sqDownFrame, emptyFF, mkKp, jgt, jlt,
        jaddc]
    · norm_num [restCond, sqRest, sqUpFrame, emptyFF, mkKp, jlt, jaddc]
    · norm_num [Spaced, debounceOf, sqDownFrame, sqUpFrame, emptyFF]
  exact ⟨hcy, (C9_reset_replay sampleState).2.2 .squats _ hcy⟩

/-- C10: at every reachable state of a run, the published store's count
never exceeds the local buffer's count, for every exercise. -/
theorem C10_store_le_buffer (t0 : ℤ) (fs : List FilteredFrame) (k : Exercise) :
    (processFrames (initState t0) fs).contextCounts k ≤
      (processFrames (initState t0) fs).localCounts k :=
  storeLeAux fs (initState t0) (fun _ => le_refl 0) k
